import Mathlib

/-!
Verification of the `weryfikator` domain-security and token subsystem.

This file is a shallow embedding of the Python sources under
`src/weryfikator` (token mint/verify in `crypto.py`, the error classifiers
under `checks/`, and the unified security check `checks/unified.py`),
together with theorems settling the specification claims about them.

Library calls of the source are modelled executably:
Python `str(int)` / `int(str)` as decimal rendering/parsing,
`str.split(':')` as `splitColon`, `str.lower()` on its ASCII fragment,
`str.encode('utf-8')` / `bytes.decode('utf-8')` as a UTF-8 codec, and
`base64.b64encode` / `b64decode` as a standard base64 codec (Python's
decoder is laxer about stray characters, but every decode failure lands
in the same caught-exception path of `verify_token`).  `hmac.new(master_secret
+ PEPPER, m, sha256).hexdigest()` is abstracted as a function parameter
`mac : String → String`; theorems hold for every such function, and
hypotheses record the facts used about real hex digests (ASCII output,
no colon characters).
-/

namespace Weryfikator

/-! ## Decimal rendering and parsing (Python `str(int)` and `int(str)`) -/

def digitChar (d : Nat) : Char :=
  if d = 0 then '0' else if d = 1 then '1' else if d = 2 then '2'
  else if d = 3 then '3' else if d = 4 then '4' else if d = 5 then '5'
  else if d = 6 then '6' else if d = 7 then '7' else if d = 8 then '8' else '9'

/-- Decimal digits of `n`, most significant first; `fuel` bounds recursion
so that the definition is structural (kernel-reducible). -/
def natToCharsAux : Nat → Nat → List Char
  | 0, _ => []
  | fuel + 1, n =>
    if n < 10 then [digitChar n]
    else natToCharsAux fuel (n / 10) ++ [digitChar (n % 10)]

def natToChars (n : Nat) : List Char := natToCharsAux (n + 1) n

/-- Python `str` of a nonnegative integer. -/
def natToStr (n : Nat) : String := ⟨natToChars n⟩

/-- Python `str` of an `int` (used for the timestamp, TTL and age fields). -/
def intToStr (i : Int) : String :=
  if i < 0 then "-" ++ natToStr i.natAbs else natToStr i.natAbs

def digitVal (c : Char) : Option Nat :=
  if '0' ≤ c ∧ c ≤ '9' then some (c.toNat - 48) else none

def parseDigitsAux : List Char → Nat → Option Nat
  | [], acc => some acc
  | c :: cs, acc =>
    match digitVal c with
    | some d => parseDigitsAux cs (acc * 10 + d)
    | none => none

def parseNatChars (cs : List Char) : Option Nat :=
  if cs = [] then none else parseDigitsAux cs 0

/-- Model of Python `int(s)` on the fragment exercised by tokens: an
optional single sign followed by decimal digits.  (CPython additionally
accepts surrounding whitespace and digit-group underscores; no claim
input uses those.) -/
def parseInt (s : String) : Option Int :=
  match s.data with
  | [] => none
  | c :: rest =>
    if c = '-' then
      match parseNatChars rest with
      | some n => some (-(n : Int))
      | none => none
    else if c = '+' then
      match parseNatChars rest with
      | some n => some ((n : Int))
      | none => none
    else
      match parseNatChars (c :: rest) with
      | some n => some ((n : Int))
      | none => none

/-! ## Splitting on `':'` (Python `s.split(':')`) -/

def splitColonChars : List Char → List (List Char)
  | [] => [[]]
  | c :: cs =>
    if c = ':' then [] :: splitColonChars cs
    else
      match splitColonChars cs with
      | [] => [[c]]
      | g :: gs => (c :: g) :: gs

/-- Python `s.split(':')`. -/
def splitColon (s : String) : List String :=
  (splitColonChars s.data).map (fun g => (⟨g⟩ : String))

/-! ## ASCII lowering and substring search (Python `.lower()` and `in`) -/

def asciiLowerChar (c : Char) : Char :=
  if 'A' ≤ c ∧ c ≤ 'Z' then Char.ofNat (c.toNat + 32) else c

/-- Model of Python `str.lower` on the ASCII fragment (all classifier
keywords and the error text they scan are ASCII). -/
def asciiLower (s : String) : String := ⟨s.data.map asciiLowerChar⟩

/-- `needle` begins `hay`. -/
def leadChars : List Char → List Char → Bool
  | [], _ => true
  | _ :: _, [] => false
  | a :: as, b :: bs => a == b && leadChars as bs

/-- `needle` occurs contiguously inside `hay`. -/
def subChars (needle : List Char) : List Char → Bool
  | [] => leadChars needle []
  | c :: t => leadChars needle (c :: t) || subChars needle t

/-- Python `needle in hay` substring test. -/
def containsStr (hay needle : String) : Bool := subChars needle.data hay.data

/-- Python `s.startswith(pre)`. -/
def startsWithStr (s pre : String) : Bool := leadChars pre.data s.data

/-! ## UTF-8 codec (Python `str.encode('utf-8')` / `bytes.decode('utf-8')`)

Arithmetic formulation of the standard UTF-8 byte layout.  The decoder is
total (returns `Option`); it accepts a few byte sequences CPython's strict
decoder rejects (overlong forms, encoded surrogates), but the claims rely
only on decoding the encoder's own output and on the existence of
undecodable inputs, and on both of those the two decoders agree. -/

def utf8EncodeChar (c : Char) : List Nat :=
  let n := c.toNat
  if n < 128 then [n]
  else if n < 2048 then [192 + n / 64, 128 + n % 64]
  else if n < 65536 then [224 + n / 4096, 128 + n / 64 % 64, 128 + n % 64]
  else [240 + n / 262144, 128 + n / 4096 % 64, 128 + n / 64 % 64, 128 + n % 64]

def utf8EncodeChars : List Char → List Nat
  | [] => []
  | c :: cs => utf8EncodeChar c ++ utf8EncodeChars cs

def isContByte (b : Nat) : Bool := 128 ≤ b && b < 192

def consChar (c : Char) : Option (List Char) → Option (List Char)
  | some cs => some (c :: cs)
  | none => none

/-- Decode one UTF-8 scalar from the head of a byte list, returning it and
the remaining bytes. -/
def utf8DecodeStep : List Nat → Option (Char × List Nat)
  | [] => none
  | b0 :: rest =>
    if b0 < 128 then some (Char.ofNat b0, rest)
    else if b0 < 192 then none
    else if b0 < 224 then
      match rest with
      | b1 :: rest1 =>
        if isContByte b1 then some (Char.ofNat ((b0 - 192) * 64 + (b1 - 128)), rest1) else none
      | [] => none
    else if b0 < 240 then
      match rest with
      | b1 :: b2 :: rest2 =>
        if isContByte b1 && isContByte b2 then
          some (Char.ofNat ((b0 - 224) * 4096 + (b1 - 128) * 64 + (b2 - 128)), rest2)
        else none
      | _ => none
    else if b0 < 248 then
      match rest with
      | b1 :: b2 :: b3 :: rest3 =>
        if isContByte b1 && isContByte b2 && isContByte b3 then
          some (Char.ofNat
            ((b0 - 240) * 262144 + (b1 - 128) * 4096 + (b2 - 128) * 64 + (b3 - 128)), rest3)
        else none
      | _ => none
    else none

/-- Decoding loop; each step consumes at least one byte, so `fuel` equal to
the byte count is always enough. -/
def utf8DecodeLoop : Nat → List Nat → Option (List Char)
  | _, [] => some []
  | 0, _ :: _ => none
  | fuel + 1, b :: bs =>
    match utf8DecodeStep (b :: bs) with
    | some (c, rest) => consChar c (utf8DecodeLoop fuel rest)
    | none => none

def utf8DecodeChars (bs : List Nat) : Option (List Char) := utf8DecodeLoop bs.length bs

/-! ## Base64 codec (Python `base64.b64encode` / `base64.b64decode`)

Standard base64 with `'='` padding.  The decoder is strict about the
alphabet and padding shape; CPython's default decoder first discards
characters outside the alphabet and then fails on residual length, so the
two differ only in which malformed inputs fail, and every such failure is
caught by the same `except` clause of `verify_token`. -/

def b64Alphabet : List Char :=
  ['A', 'B', 'C', 'D', 'E', 'F', 'G', 'H', 'I', 'J', 'K', 'L', 'M',
   'N', 'O', 'P', 'Q', 'R', 'S', 'T', 'U', 'V', 'W', 'X', 'Y', 'Z',
   'a', 'b', 'c', 'd', 'e', 'f', 'g', 'h', 'i', 'j', 'k', 'l', 'm',
   'n', 'o', 'p', 'q', 'r', 's', 't', 'u', 'v', 'w', 'x', 'y', 'z',
   '0', '1', '2', '3', '4', '5', '6', '7', '8', '9', '+', '/']

def b64Char (n : Nat) : Char := b64Alphabet.getD n 'A'

def b64Val (c : Char) : Option Nat := b64Alphabet.findIdx? (fun x => x == c)

def b64EncodeBytes : List Nat → List Char
  | [] => []
  | [b0] => [b64Char (b0 / 4), b64Char (b0 % 4 * 16), '=', '=']
  | [b0, b1] => [b64Char (b0 / 4), b64Char (b0 % 4 * 16 + b1 / 16), b64Char (b1 % 16 * 4), '=']
  | b0 :: b1 :: b2 :: rest =>
    b64Char (b0 / 4) :: b64Char (b0 % 4 * 16 + b1 / 16) :: b64Char (b1 % 16 * 4 + b2 / 64) ::
      b64Char (b2 % 64) :: b64EncodeBytes rest

def consBytes (bs : List Nat) : Option (List Nat) → Option (List Nat)
  | some t => some (bs ++ t)
  | none => none

/-- Decode one 4-character base64 group, returning its bytes and the
remaining characters (empty after a padded final group). -/
def b64DecodeStep : List Char → Option (List Nat × List Char)
  | c0 :: c1 :: c2 :: c3 :: rest =>
    match b64Val c0, b64Val c1 with
    | some v0, some v1 =>
      if c2 = '=' then
        if c3 = '=' && rest.isEmpty then some ([v0 * 4 + v1 / 16], []) else none
      else
        match b64Val c2 with
        | some v2 =>
          if c3 = '=' then
            if rest.isEmpty then some ([v0 * 4 + v1 / 16, v1 % 16 * 16 + v2 / 4], []) else none
          else
            match b64Val c3 with
            | some v3 =>
              some ([v0 * 4 + v1 / 16, v1 % 16 * 16 + v2 / 4, v2 % 4 * 64 + v3], rest)
            | none => none
        | none => none
    | _, _ => none
  | _ => none

def b64DecodeLoop : Nat → List Char → Option (List Nat)
  | _, [] => some []
  | 0, _ :: _ => none
  | fuel + 1, c :: cs =>
    match b64DecodeStep (c :: cs) with
    | some (bs, rest) => consBytes bs (b64DecodeLoop fuel rest)
    | none => none

def b64DecodeChars (l : List Char) : Option (List Nat) := b64DecodeLoop l.length l

/-- Python `base64.b64encode(s.encode('utf-8')).decode('utf-8')`. -/
def b64EncodeStr (s : String) : String := ⟨b64EncodeBytes (utf8EncodeChars s.data)⟩

/-- Python `base64.b64decode(token.encode('utf-8')).decode('utf-8')`,
with `none` for the decode failures (raised exceptions) of either stage. -/
def b64DecodeStr (s : String) : Option String :=
  match b64DecodeChars s.data with
  | some bs =>
    match utf8DecodeChars bs with
    | some cs => some (⟨cs⟩ : String)
    | none => none
  | none => none

/-! ## `crypto.py` — the `Verifier` token codec

The HMAC layer is abstracted: for a fixed `master_secret`,
`hmac.new(master_secret + PEPPER, message, sha256).hexdigest()` is a pure
function of `message`; it enters the model as the parameter
`mac : String → String` (applied to the message string before UTF-8
encoding, which commutes with the byte-level call).  Theorem hypotheses
record the two facts used about real hex digests: their characters are
ASCII and contain no `':'`. -/

/-- A single-quote character (written by code point to keep source fidelity
of the Python message literals). -/
def sq : String := ⟨[Char.ofNat 39]⟩

/-- `Verifier._normalize_domain`:
`re.sub(r'^https?://', '', domain, flags=re.IGNORECASE)` — strip one
leading `http://` or `https://`, case-insensitively, nothing else. -/
def normalize_domain (domain : String) : String :=
  if asciiLower (⟨domain.data.take 8⟩ : String) = "https://" then ⟨domain.data.drop 8⟩
  else if asciiLower (⟨domain.data.take 7⟩ : String) = "http://" then ⟨domain.data.drop 7⟩
  else domain

/-- `Verifier.generate_token`.  `now` is `int(datetime.now(timezone.utc)
.timestamp())` and `salt_hex` is `secrets.token_bytes(16).hex()`, both
passed as parameters (clock and randomness made explicit). -/
def generate_token (mac : String → String) (domain : String) (ttl_seconds : Int)
    (now : Nat) (salt_hex : String) : String :=
  let normalized_domain := normalize_domain domain
  let timestamp := natToStr now
  let ttl := intToStr ttl_seconds
  let message := normalized_domain ++ ":" ++ timestamp ++ ":" ++ ttl ++ ":" ++ salt_hex
  let signature := mac message
  let token_data := message ++ ":" ++ signature
  b64EncodeStr token_data

/-- `hmac.compare_digest` on two `str` arguments: defined only when both
are ASCII (CPython raises `TypeError` otherwise, modelled as `none`);
the timing-safety aspect has no functional content. -/
def compare_digest (a b : String) : Option Bool :=
  if a.data.all (fun c => c.toNat < 128) && b.data.all (fun c => c.toNat < 128) then
    some (a == b)
  else none

/-- `Verifier.verify_token`.  Total: every exception path of the source is
a `(false, reason, domain)` return.  The reasons of the outer
`except Exception` handler are `'Token verification error: ' + str(e)`;
the model fixes the interpolated library text. -/
def verify_token (mac : String → String) (now : Nat) (token : String) :
    Bool × String × String :=
  match b64DecodeStr token with
  | none => (false, "Token verification error: invalid token encoding", "")
  | some token_data =>
    match splitColon token_data with
    | [token_domain, timestamp_str, ttl_str, salt_hex, provided_signature] =>
      match parseInt timestamp_str, parseInt ttl_str with
      | some timestamp, some ttl =>
        if (now : Int) > timestamp + ttl then
          (false, "Token expired (TTL: " ++ intToStr ttl ++ "s, age: " ++
            intToStr ((now : Int) - timestamp) ++ "s)", token_domain)
        else
          let message := token_domain ++ ":" ++ timestamp_str ++ ":" ++ ttl_str ++ ":" ++ salt_hex
          let expected_signature := mac message
          match compare_digest expected_signature provided_signature with
          | none => (false, "Token verification error: non-ASCII digest comparison", "")
          | some ok =>
            if ok then (true, "Token verified successfully", token_domain)
            else (false, "Invalid signature (token may be forged or tampered)", "")
      | _, _ => (false, "Invalid timestamp or TTL", "")
    | _ => (false, "Invalid token format", "")

/-! ## `checks/domain.py` -/

/-- `verify_domain`, with the whitelist file contents as a parameter. -/
def verify_domain (gov_domains : List String) (domain : String) : Except String Bool :=
  if domain ∈ gov_domains then Except.ok true
  else Except.error ("Domain " ++ sq ++ domain ++ sq ++ " is not in the government domains list")

/-! ## `checks/ssl_errors.py` — `_parse_ssl_error` -/

/-- `_parse_ssl_error(error, url)` always raises one `CertificateError`;
the returned string is that error's message, `errText` standing for
`str(error)`. -/
def _parse_ssl_error (errText url : String) : String :=
  let error_msg := asciiLower errText
  if containsStr error_msg "certificate has expired" || containsStr error_msg "expired" then
    "Certificate has expired for " ++ url
  else if containsStr error_msg "hostname" || containsStr error_msg "does not match" then
    "Certificate hostname mismatch for " ++ url
  else if containsStr error_msg "self signed" || containsStr error_msg "self-signed" then
    "Self-signed certificate detected for " ++ url
  else if containsStr error_msg "unable to get local issuer" ||
      containsStr error_msg "certificate verify failed" then
    "Untrusted root certificate for " ++ url
  else
    "Certificate error for " ++ url ++ ": " ++ errText

/-! ## `checks/key_exchange_errors.py` -/

/-- `_parse_key_exchange_error(error, domain)` always raises one
`KeyExchangeError`; the returned string is that error's message. -/
def _parse_key_exchange_error (errText domain : String) : String :=
  let error_msg := asciiLower errText
  if containsStr error_msg "bad_dh_value" || containsStr error_msg "bad dh value" then
    "Domain " ++ domain ++ " uses invalid or weak Diffie-Hellman parameters (bad DH value). " ++
      "This is vulnerable to attacks and rejected by modern clients."
  else if containsStr error_msg "dh key too small" || containsStr error_msg "dh_key_too_small" then
    "Domain " ++ domain ++ " uses weak Diffie-Hellman key exchange parameters (key too small). " ++
      "This is vulnerable to attacks and rejected by modern clients."
  else if containsStr error_msg "handshake failure" ||
      containsStr error_msg "handshake_failure" then
    "Domain " ++ domain ++ " SSL handshake failed, possibly due to weak key exchange " ++
      "parameters. Error: " ++ errText
  else if containsStr error_msg "small" && containsStr error_msg "subgroup" then
    "Domain " ++ domain ++ " uses Diffie-Hellman parameters vulnerable to small subgroup attacks."
  else if containsStr error_msg "composite" then
    "Domain " ++ domain ++ " uses Diffie-Hellman parameters with composite modulus (vulnerable)."
  else if containsStr error_msg "ssl" || containsStr error_msg "tls" ||
      containsStr error_msg "cipher" then
    "Domain " ++ domain ++ " has key exchange or cipher suite issues: " ++ errText
  else
    "Domain " ++ domain ++ " has a key exchange related error: " ++ errText

/-- The `key_exchange_indicators` list shared by `check_weak_key_exchange`
and `check_domain_security`. -/
def key_exchange_indicators : List String :=
  ["bad_dh_value", "bad dh value", "dh key too small", "dh_key_too_small",
   "handshake failure", "handshake_failure", "no shared cipher", "cipher", "key exchange"]

def matchesKexIndicator (error_msg : String) : Bool :=
  key_exchange_indicators.any (fun indicator => containsStr error_msg indicator)

/-- Outcome of `check_weak_key_exchange`'s SSL-error handler: either a
`KeyExchangeError` (with its message) raised by the parser, or the original
exception re-raised unchanged. -/
inductive KexCheckOutcome
  | raisedKeyExchange (msg : String)
  | reraisedOriginal
deriving DecidableEq

/-- The SSL-error `except` branch of `check_weak_key_exchange`: parse when
an indicator matches (the parser always raises), else re-raise. -/
def check_weak_key_exchange_on_ssl_error (errText domain : String) : KexCheckOutcome :=
  let error_msg := asciiLower errText
  if matchesKexIndicator error_msg then
    KexCheckOutcome.raisedKeyExchange (_parse_key_exchange_error errText domain)
  else
    KexCheckOutcome.reraisedOriginal

/-! ## `checks/http_errors.py` — `_check_http_redirects` -/

/-- `_check_http_redirects(response, original_url)`: `some msg` models the
raised `HTTPError`, `none` a normal return.  `finalUrl` is
`str(response.url)` and `history` the `str(r.url)` of `response.history`. -/
def _check_http_redirects (finalUrl : String) (history : List String)
    (original_url : String) : Option String :=
  if startsWithStr finalUrl "http://" then
    some ("Site redirects to insecure HTTP: " ++ original_url ++ " -> " ++ finalUrl)
  else
    match history.find? (fun redirect => startsWithStr redirect "http://") with
    | some redirect => some ("Redirect chain contains insecure HTTP: " ++ redirect)
    | none => none

/-! ## `checks/ca_chain.py` — `check_ca_chain` -/

def EXPECTED_ROOT_CA_CN : String := "Certum Trusted Network CA"

def EXPECTED_ROOT_CA_ORG : String := "Unizeto Technologies S.A."

/-- An X509 certificate as used by `check_ca_chain`: subject and issuer
CN/O fields (`none` models a missing attribute, Python `None`). -/
structure CertInfo where
  subjectCN : Option String
  subjectO : Option String
  issuerCN : Option String
  issuerO : Option String
deriving DecidableEq

/-- Python string interpolation of a value that may be `None`. -/
def optStr : Option String → String
  | some s => s
  | none => "None"

def certMatchesRoot (cert : CertInfo) : Bool :=
  cert.subjectCN == some EXPECTED_ROOT_CA_CN && cert.subjectO == some EXPECTED_ROOT_CA_ORG

/-- `check_ca_chain` after chain retrieval (`cert_chain` is what
`_get_cert_chain_sync` returned): `Except.error` models a raised
`CertificateError` with its message. -/
def check_ca_chain (domain : String) (cert_chain : List CertInfo) : Except String Bool :=
  if cert_chain.isEmpty then
    Except.error ("Empty certificate chain for domain " ++ domain)
  else if cert_chain.any certMatchesRoot then
    Except.ok true
  else
    let last_cert := cert_chain.getLastD ⟨none, none, none, none⟩
    if last_cert.issuerCN == some EXPECTED_ROOT_CA_CN &&
        last_cert.issuerO == some EXPECTED_ROOT_CA_ORG then
      Except.ok true
    else
      Except.error ("Domain " ++ domain ++ " uses different root CA. Expected CN=" ++ sq ++
        EXPECTED_ROOT_CA_CN ++ sq ++ ", got CN=" ++ sq ++ optStr last_cert.issuerCN ++ sq)

/-! ## `checks/unified.py` — `check_domain_security`

The two network attempts are parameters describing what `session.get`
would do: the HTTPS attempt either yields a response (final URL and
redirect history), raises one of the three `aiohttp` SSL exception types
(`sslError` with its `str`), or raises any other exception (`otherError`);
the HTTP fallback either succeeds or fails.  The second component of the
result counts the `session.get` calls issued. -/

inductive HttpsAttempt
  | success (finalUrl : String) (history : List String)
  | sslError (errText : String)
  | otherError (errText : String)
deriving DecidableEq

inductive HttpAttempt
  | success
  | failure (errText : String)
deriving DecidableEq

/-- The result of `check_domain_security`: a normal `True` return, or the
raised typed error with its message. -/
inductive SecurityOutcome
  | allowed
  | domainError (msg : String)
  | certificateError (msg : String)
  | keyExchangeError (msg : String)
  | httpError (msg : String)
deriving DecidableEq

def check_domain_security (gov_domains : List String) (domain : String)
    (skip_domain_whitelist : Bool) (httpsAttempt : HttpsAttempt)
    (httpAttempt : HttpAttempt) : SecurityOutcome × Nat :=
  if !skip_domain_whitelist && !(decide (domain ∈ gov_domains)) then
    (SecurityOutcome.domainError
      ("Domain " ++ sq ++ domain ++ sq ++ " is not in the government domains list"), 0)
  else
    let https_url := "https://" ++ domain
    match httpsAttempt with
    | HttpsAttempt.success finalUrl history =>
      match _check_http_redirects finalUrl history https_url with
      | some msg => (SecurityOutcome.httpError msg, 1)
      | none => (SecurityOutcome.allowed, 1)
    | HttpsAttempt.sslError errText =>
      let error_msg := asciiLower errText
      if matchesKexIndicator error_msg then
        (SecurityOutcome.keyExchangeError (_parse_key_exchange_error errText domain), 1)
      else
        (SecurityOutcome.certificateError (_parse_ssl_error errText https_url), 1)
    | HttpsAttempt.otherError errText =>
      match httpAttempt with
      | HttpAttempt.success =>
        (SecurityOutcome.httpError ("Domain " ++ domain ++
          " only accepts insecure HTTP connections. HTTPS failed with: " ++ errText), 2)
      | HttpAttempt.failure httpErrText =>
        (SecurityOutcome.httpError ("Domain " ++ domain ++ " is unreachable. HTTPS error: " ++
          errText ++ ". HTTP error: " ++ httpErrText), 2)

/-! ## Helper lemmas about the token codec -/

/-- The two facts the theorems use about `hmac(...).hexdigest()` output:
it is ASCII and contains no `':'` (hex digests are lowercase hex). -/
def macOk (mac : String → String) : Prop :=
  ∀ m, (∀ c ∈ (mac m).data, c.toNat < 128) ∧ ':' ∉ (mac m).data

/-- `ys` is `xs` with exactly one character replaced by a different one. -/
def OneFlip (xs ys : List Char) : Prop :=
  ∃ pre a b suf, a ≠ b ∧ xs = pre ++ a :: suf ∧ ys = pre ++ b :: suf

/-! ## Concrete MAC instances for evaluation

Stand-ins for `hmac(...).hexdigest()` used to evaluate the model at
concrete inputs (any function of the message is admissible there; the
universally quantified theorems cover the real HMAC). -/

def macDemo : String → String := fun _ => "ab"

def macFlip : String → String := fun s => if s = "a:100:30:ff" then "ab" else "cd"

/-! # Theorems -/

/-! ### Lemmas about the utilities -/

theorem natToCharsAux_digits (fuel n : Nat) :
    ∀ c ∈ natToCharsAux fuel n, '0' ≤ c ∧ c ≤ '9' := by
  induction fuel generalizing n with
  | zero => intro c hc; simp [natToCharsAux] at hc
  | succ fuel ih =>
    intro c hc
    simp only [natToCharsAux] at hc
    split at hc
    · rename_i h
      simp only [List.mem_singleton] at hc
      subst hc
      unfold digitChar
      split_ifs <;> exact ⟨by decide, by decide⟩
    · rename_i h
      rcases List.mem_append.1 hc with h1 | h1
      · exact ih _ _ h1
      · simp only [List.mem_singleton] at h1
        subst h1
        unfold digitChar
        split_ifs <;> exact ⟨by decide, by decide⟩

theorem natToChars_digits (n : Nat) : ∀ c ∈ natToChars n, '0' ≤ c ∧ c ≤ '9' :=
  natToCharsAux_digits _ n

theorem natToChars_ne_nil (n : Nat) : natToChars n ≠ [] := by
  unfold natToChars natToCharsAux
  split
  · simp
  · simp

theorem digitVal_digitChar (d : Nat) (hd : d < 10) : digitVal (digitChar d) = some d := by
  interval_cases d <;> decide

theorem parseDigitsAux_append (xs ys : List Char) (acc : Nat) :
    parseDigitsAux (xs ++ ys) acc =
      match parseDigitsAux xs acc with
      | some a => parseDigitsAux ys a
      | none => none := by
  induction xs generalizing acc with
  | nil => simp [parseDigitsAux]
  | cons c cs ih =>
    simp only [List.cons_append, parseDigitsAux]
    cases digitVal c with
    | none => simp
    | some d => simp [ih]

theorem parseDigitsAux_natToCharsAux (fuel n acc : Nat) (hfuel : n < fuel) :
    parseDigitsAux (natToCharsAux fuel n) acc =
      some (acc * 10 ^ (natToCharsAux fuel n).length + n) := by
  induction fuel generalizing n acc with
  | zero => omega
  | succ fuel ih =>
    by_cases h : n < 10
    · simp only [natToCharsAux, if_pos h, parseDigitsAux, digitVal_digitChar n h]
      simp
    · have hrec : n / 10 < fuel := by omega
      simp only [natToCharsAux, if_neg h]
      rw [parseDigitsAux_append]
      rw [ih (n / 10) acc hrec]
      simp only [parseDigitsAux, digitVal_digitChar (n % 10) (by omega)]
      simp only [List.length_append, List.length_cons, List.length_nil]
      have : acc * 10 ^ ((natToCharsAux fuel (n / 10)).length + (0 + 1)) =
          (acc * 10 ^ (natToCharsAux fuel (n / 10)).length) * 10 := by ring
      rw [this]
      congr 1
      omega

theorem parseNatChars_natToChars (n : Nat) : parseNatChars (natToChars n) = some n := by
  unfold parseNatChars
  rw [if_neg (natToChars_ne_nil n)]
  have := parseDigitsAux_natToCharsAux (n + 1) n 0 (by omega)
  simpa [natToChars] using this

theorem parseNatChars_not_dash (n : Nat) :
    ∃ c cs, natToChars n = c :: cs ∧ c ≠ '-' ∧ c ≠ '+' := by
  cases h : natToChars n with
  | nil => exact absurd h (natToChars_ne_nil n)
  | cons c cs =>
    refine ⟨c, cs, rfl, ?_, ?_⟩ <;>
    · have hd := natToChars_digits n c (by rw [h]; exact List.mem_cons_self c cs)
      intro he
      subst he
      revert hd
      decide

theorem parseInt_natToStr (n : Nat) : parseInt (natToStr n) = some (n : Int) := by
  obtain ⟨c, cs, hcs, hmin, hplus⟩ := parseNatChars_not_dash n
  have hdata : (natToStr n).data = c :: cs := by simp [natToStr, hcs]
  unfold parseInt
  rw [hdata]
  simp only [if_neg hmin, if_neg hplus]
  rw [← hcs, parseNatChars_natToChars]

theorem data_append (s t : String) : (s ++ t).data = s.data ++ t.data :=
  String.data_append s t

theorem parseInt_intToStr (i : Int) : parseInt (intToStr i) = some i := by
  unfold intToStr
  split
  · rename_i hneg
    have hdata : ("-" ++ natToStr i.natAbs).data = '-' :: natToChars i.natAbs := by
      rw [data_append]
      rfl
    unfold parseInt
    rw [hdata]
    simp only [if_pos, parseNatChars_natToChars, Option.some.injEq]
    omega
  · rename_i hpos
    rw [parseInt_natToStr]
    congr 1
    omega

theorem natToChars_noColon (n : Nat) : ':' ∉ natToChars n := by
  intro h
  have := natToChars_digits n ':' h
  revert this
  decide

theorem natToStr_noColon (n : Nat) : ':' ∉ (natToStr n).data :=
  natToChars_noColon n

theorem intToStr_noColon (i : Int) : ':' ∉ (intToStr i).data := by
  unfold intToStr
  split
  · rw [data_append]
    intro h
    rcases List.mem_append.1 h with h1 | h1
    · revert h1; decide
    · exact natToChars_noColon _ h1
  · exact natToChars_noColon _

/-! ### Lemmas about `splitColonChars` -/

theorem splitColonChars_ne_nil (cs : List Char) : splitColonChars cs ≠ [] := by
  cases cs with
  | nil => simp [splitColonChars]
  | cons c cs =>
    unfold splitColonChars
    split
    · simp
    · cases splitColonChars cs <;> simp

theorem splitColonChars_noColon (cs : List Char) (h : ':' ∉ cs) :
    splitColonChars cs = [cs] := by
  induction cs with
  | nil => rfl
  | cons c cs ih =>
    have hc : c ≠ ':' := fun he => h (he ▸ List.mem_cons_self c cs)
    have hcs : ':' ∉ cs := fun hm => h (List.mem_cons_of_mem c hm)
    unfold splitColonChars
    rw [if_neg hc, ih hcs]

theorem splitColonChars_cons_ne (c : Char) (cs : List Char) (hc : c ≠ ':') :
    splitColonChars (c :: cs) =
      match splitColonChars cs with
      | [] => [[c]]
      | g :: gs => (c :: g) :: gs := by
  conv_lhs => unfold splitColonChars
  rw [if_neg hc]

theorem splitColonChars_append (xs ys : List Char) (h : ':' ∉ xs) :
    splitColonChars (xs ++ ':' :: ys) = xs :: splitColonChars ys := by
  induction xs with
  | nil => simp [splitColonChars]
  | cons c cs ih =>
    have hc : c ≠ ':' := fun he => h (he ▸ List.mem_cons_self c cs)
    have hcs : ':' ∉ cs := fun hm => h (List.mem_cons_of_mem c hm)
    rw [List.cons_append, splitColonChars_cons_ne c _ hc, ih hcs]

theorem splitColonChars_length (cs : List Char) :
    (splitColonChars cs).length = cs.count ':' + 1 := by
  induction cs with
  | nil => rfl
  | cons c cs ih =>
    unfold splitColonChars
    by_cases hc : c = ':'
    · rw [if_pos hc]
      subst hc
      simp [List.count_cons, ih]
    · rw [if_neg hc]
      rcases hsp : splitColonChars cs with _ | ⟨g, gs⟩
      · exact absurd hsp (splitColonChars_ne_nil cs)
      · have : cs.count ':' + 1 = (g :: gs).length := by rw [← hsp, ih]
        simp only [List.length_cons] at this ⊢
        rw [List.count_cons]
        simp [hc]
        omega

/-! ### Lemmas about substring search -/

theorem leadChars_iff (n h : List Char) :
    leadChars n h = true ↔ ∃ t, h = n ++ t := by
  induction n generalizing h with
  | nil => simp [leadChars]
  | cons a as ih =>
    cases h with
    | nil => simp [leadChars]
    | cons b hs =>
      simp only [leadChars, Bool.and_eq_true, beq_iff_eq, ih, List.cons_append,
        List.cons.injEq]
      constructor
      · rintro ⟨rfl, t, rfl⟩
        exact ⟨t, rfl, rfl⟩
      · rintro ⟨t, rfl, rfl⟩
        exact ⟨rfl, t, rfl⟩

theorem subChars_iff (n h : List Char) :
    subChars n h = true ↔ ∃ x y, h = x ++ n ++ y := by
  induction h with
  | nil =>
    cases n with
    | nil => simp [subChars, leadChars]
    | cons a as => simp [subChars, leadChars]
  | cons c t ih =>
    simp only [subChars, Bool.or_eq_true, leadChars_iff, ih]
    constructor
    · rintro (⟨y, hy⟩ | ⟨x, y, hxy⟩)
      · exact ⟨[], y, by simp [hy]⟩
      · exact ⟨c :: x, y, by simp [hxy]⟩
    · rintro ⟨x, y, hxy⟩
      cases x with
      | nil =>
        left
        exact ⟨y, by simpa using hxy⟩
      | cons c' x' =>
        right
        simp only [List.cons_append, List.cons.injEq] at hxy
        exact ⟨x', y, hxy.2⟩

theorem containsStr_append_middle (a b c : String) :
    containsStr (a ++ b ++ c) b = true := by
  unfold containsStr
  rw [subChars_iff]
  exact ⟨a.data, c.data, by simp [data_append]⟩

theorem Char.toNat_lt_codespace (c : Char) : c.toNat < 1114112 := by
  have heq : c.toNat = c.val.toNat := rfl
  rcases c.valid with h | h
  · have h1 : c.val.toNat < 55296 := h
    omega
  · have h2 : c.val.toNat < 1114112 := h.2
    omega

theorem utf8EncodeChar_bytes_lt (c : Char) : ∀ b ∈ utf8EncodeChar c, b < 256 := by
  have hc := Char.toNat_lt_codespace c
  intro b hb
  simp only [utf8EncodeChar] at hb
  split_ifs at hb with h1 h2 h3
  · simp only [List.mem_singleton] at hb
    omega
  · simp only [List.mem_cons, List.not_mem_nil, or_false] at hb
    rcases hb with rfl | rfl <;> omega
  · simp only [List.mem_cons, List.not_mem_nil, or_false] at hb
    rcases hb with rfl | rfl | rfl <;> omega
  · simp only [List.mem_cons, List.not_mem_nil, or_false] at hb
    rcases hb with rfl | rfl | rfl | rfl <;> omega

theorem utf8EncodeChars_bytes_lt (cs : List Char) : ∀ b ∈ utf8EncodeChars cs, b < 256 := by
  induction cs with
  | nil => simp [utf8EncodeChars]
  | cons c cs ih =>
    intro b hb
    rcases List.mem_append.1 hb with h | h
    · exact utf8EncodeChar_bytes_lt c b h
    · exact ih b h

theorem utf8DecodeStep_encodeChar (c : Char) (bs : List Nat) :
    utf8DecodeStep (utf8EncodeChar c ++ bs) = some (c, bs) := by
  have hc := Char.toNat_lt_codespace c
  have hofn : Char.ofNat c.toNat = c := Char.ofNat_toNat c
  simp only [utf8EncodeChar]
  by_cases h1 : c.toNat < 128
  · rw [if_pos h1]
    simp only [List.cons_append, List.nil_append, utf8DecodeStep]
    rw [if_pos h1, hofn]
  · rw [if_neg h1]
    by_cases h2 : c.toNat < 2048
    · rw [if_pos h2]
      simp only [List.cons_append, List.nil_append, utf8DecodeStep]
      rw [if_neg (by omega), if_neg (by omega), if_pos (by omega),
        if_pos (show isContByte (128 + c.toNat % 64) = true by
          simp only [isContByte, Bool.and_eq_true, decide_eq_true_eq]; omega)]
      have hval : (192 + c.toNat / 64 - 192) * 64 + (128 + c.toNat % 64 - 128) = c.toNat := by
        omega
      rw [hval, hofn]
    · rw [if_neg h2]
      by_cases h3 : c.toNat < 65536
      · rw [if_pos h3]
        simp only [List.cons_append, List.nil_append, utf8DecodeStep]
        rw [if_neg (by omega), if_neg (by omega), if_neg (by omega), if_pos (by omega),
          if_pos (show (isContByte (128 + c.toNat / 64 % 64) &&
              isContByte (128 + c.toNat % 64)) = true by
            simp only [isContByte, Bool.and_eq_true, decide_eq_true_eq]; omega)]
        have hval : (224 + c.toNat / 4096 - 224) * 4096 + (128 + c.toNat / 64 % 64 - 128) * 64 +
            (128 + c.toNat % 64 - 128) = c.toNat := by
          omega
        rw [hval, hofn]
      · rw [if_neg h3]
        simp only [List.cons_append, List.nil_append, utf8DecodeStep]
        rw [if_neg (by omega), if_neg (by omega), if_neg (by omega), if_neg (by omega),
          if_pos (by omega),
          if_pos (show (isContByte (128 + c.toNat / 4096 % 64) &&
              isContByte (128 + c.toNat / 64 % 64) && isContByte (128 + c.toNat % 64)) = true by
            simp only [isContByte, Bool.and_eq_true, decide_eq_true_eq]; omega)]
        have hval : (240 + c.toNat / 262144 - 240) * 262144 + (128 + c.toNat / 4096 % 64 - 128) *
            4096 + (128 + c.toNat / 64 % 64 - 128) * 64 + (128 + c.toNat % 64 - 128) = c.toNat := by
          omega
        rw [hval, hofn]

theorem utf8EncodeChar_ne_nil (c : Char) : utf8EncodeChar c ≠ [] := by
  simp only [utf8EncodeChar]
  split_ifs <;> simp

theorem utf8DecodeLoop_encodeChars (cs : List Char) :
    ∀ fuel, (utf8EncodeChars cs).length ≤ fuel →
      utf8DecodeLoop fuel (utf8EncodeChars cs) = some cs := by
  induction cs with
  | nil =>
    intro fuel _
    cases fuel <;> rfl
  | cons c cs ih =>
    intro fuel hfuel
    obtain ⟨b, bs0, henc⟩ : ∃ b bs0, utf8EncodeChar c = b :: bs0 := by
      cases h : utf8EncodeChar c with
      | nil => exact absurd h (utf8EncodeChar_ne_nil c)
      | cons b bs0 => exact ⟨b, bs0, rfl⟩
    have hlist : utf8EncodeChars (c :: cs) = b :: (bs0 ++ utf8EncodeChars cs) := by
      simp [utf8EncodeChars, henc]
    cases fuel with
    | zero =>
      rw [hlist] at hfuel
      simp at hfuel
    | succ fuel =>
      rw [hlist]
      simp only [utf8DecodeLoop]
      have hstep : utf8DecodeStep (b :: (bs0 ++ utf8EncodeChars cs)) = some (c, utf8EncodeChars cs) := by
        have := utf8DecodeStep_encodeChar c (utf8EncodeChars cs)
        rw [henc] at this
        simpa using this
      rw [hstep]
      have hlen : (utf8EncodeChars cs).length ≤ fuel := by
        rw [hlist] at hfuel
        simp only [List.length_cons, List.length_append] at hfuel
        omega
      show consChar c (utf8DecodeLoop fuel (utf8EncodeChars cs)) = some (c :: cs)
      rw [ih fuel hlen]
      rfl

theorem utf8DecodeChars_encodeChars (cs : List Char) :
    utf8DecodeChars (utf8EncodeChars cs) = some cs :=
  utf8DecodeLoop_encodeChars cs _ le_rfl

/-! ### Base64 round trip -/

theorem b64Val_b64Char (n : Nat) (h : n < 64) : b64Val (b64Char n) = some n := by
  have hfin : ∀ m : Fin 64, b64Val (b64Char m.val) = some m.val := by decide
  exact hfin ⟨n, h⟩

theorem b64Char_ne_pad (n : Nat) (h : n < 64) : b64Char n ≠ '=' := by
  intro he
  have h1 := b64Val_b64Char n h
  rw [he] at h1
  have h2 : b64Val '=' = none := by rfl
  rw [h1] at h2
  exact Option.noConfusion h2

theorem b64DecodeStep_pad2 (c0 c1 : Char) (v0 v1 : Nat)
    (h0 : b64Val c0 = some v0) (h1 : b64Val c1 = some v1) :
    b64DecodeStep [c0, c1, '=', '='] = some ([v0 * 4 + v1 / 16], []) := by
  simp [b64DecodeStep, h0, h1]

theorem b64DecodeStep_pad1 (c0 c1 c2 : Char) (v0 v1 v2 : Nat)
    (h0 : b64Val c0 = some v0) (h1 : b64Val c1 = some v1) (h2 : b64Val c2 = some v2)
    (hne2 : c2 ≠ '=') :
    b64DecodeStep [c0, c1, c2, '='] =
      some ([v0 * 4 + v1 / 16, v1 % 16 * 16 + v2 / 4], []) := by
  simp only [b64DecodeStep, h0, h1]
  rw [if_neg hne2]
  simp [h2]

theorem b64DecodeStep_full (c0 c1 c2 c3 : Char) (v0 v1 v2 v3 : Nat) (rest : List Char)
    (h0 : b64Val c0 = some v0) (h1 : b64Val c1 = some v1) (h2 : b64Val c2 = some v2)
    (h3 : b64Val c3 = some v3) (hne2 : c2 ≠ '=') (hne3 : c3 ≠ '=') :
    b64DecodeStep (c0 :: c1 :: c2 :: c3 :: rest) =
      some ([v0 * 4 + v1 / 16, v1 % 16 * 16 + v2 / 4, v2 % 4 * 64 + v3], rest) := by
  simp only [b64DecodeStep, h0, h1]
  rw [if_neg hne2]
  simp only [h2]
  rw [if_neg hne3]
  simp [h3]

theorem b64DecodeLoop_nil (fuel : Nat) : b64DecodeLoop fuel [] = some [] := by
  cases fuel <;> rfl

theorem b64DecodeLoop_encodeBytes :
    ∀ (bs : List Nat) (fuel : Nat), (∀ b ∈ bs, b < 256) →
      (b64EncodeBytes bs).length ≤ fuel → b64DecodeLoop fuel (b64EncodeBytes bs) = some bs
  | [], fuel, _, _ => b64DecodeLoop_nil fuel
  | [b0], fuel, hb, hf => by
    have hb0 : b0 < 256 := hb b0 (by simp)
    simp only [b64EncodeBytes] at hf ⊢
    simp only [List.length_cons] at hf
    cases fuel with
    | zero => omega
    | succ fuel =>
      simp only [b64DecodeLoop]
      rw [b64DecodeStep_pad2 _ _ _ _
        (b64Val_b64Char (b0 / 4) (by omega)) (b64Val_b64Char (b0 % 4 * 16) (by omega))]
      show consBytes [b0 / 4 * 4 + b0 % 4 * 16 / 16] (b64DecodeLoop fuel []) = some [b0]
      rw [b64DecodeLoop_nil fuel]
      simp only [consBytes, List.append_nil, Option.some.injEq, List.cons.injEq, and_true]
      omega
  | [b0, b1], fuel, hb, hf => by
    have hb0 : b0 < 256 := hb b0 (by simp)
    have hb1 : b1 < 256 := hb b1 (by simp)
    simp only [b64EncodeBytes] at hf ⊢
    simp only [List.length_cons] at hf
    cases fuel with
    | zero => omega
    | succ fuel =>
      simp only [b64DecodeLoop]
      rw [b64DecodeStep_pad1 _ _ _ _ _ _
        (b64Val_b64Char (b0 / 4) (by omega))
        (b64Val_b64Char (b0 % 4 * 16 + b1 / 16) (by omega))
        (b64Val_b64Char (b1 % 16 * 4) (by omega))
        (b64Char_ne_pad (b1 % 16 * 4) (by omega))]
      show consBytes [b0 / 4 * 4 + (b0 % 4 * 16 + b1 / 16) / 16,
        (b0 % 4 * 16 + b1 / 16) % 16 * 16 + b1 % 16 * 4 / 4] (b64DecodeLoop fuel []) =
        some [b0, b1]
      rw [b64DecodeLoop_nil fuel]
      simp only [consBytes, List.append_nil, Option.some.injEq, List.cons.injEq, and_true]
      exact ⟨by omega, by omega⟩
  | b0 :: b1 :: b2 :: rest0, fuel, hb, hf => by
    have hb0 : b0 < 256 := hb b0 (by simp)
    have hb1 : b1 < 256 := hb b1 (by simp)
    have hb2 : b2 < 256 := hb b2 (by simp)
    have hrest : ∀ b ∈ rest0, b < 256 := fun b hm => hb b (by simp [hm])
    simp only [b64EncodeBytes] at hf ⊢
    simp only [List.length_cons] at hf
    cases fuel with
    | zero => omega
    | succ fuel =>
      simp only [b64DecodeLoop]
      rw [b64DecodeStep_full _ _ _ _ _ _ _ _ _
        (b64Val_b64Char (b0 / 4) (by omega))
        (b64Val_b64Char (b0 % 4 * 16 + b1 / 16) (by omega))
        (b64Val_b64Char (b1 % 16 * 4 + b2 / 64) (by omega))
        (b64Val_b64Char (b2 % 64) (by omega))
        (b64Char_ne_pad (b1 % 16 * 4 + b2 / 64) (by omega))
        (b64Char_ne_pad (b2 % 64) (by omega))]
      show consBytes [b0 / 4 * 4 + (b0 % 4 * 16 + b1 / 16) / 16,
        (b0 % 4 * 16 + b1 / 16) % 16 * 16 + (b1 % 16 * 4 + b2 / 64) / 4,
        (b1 % 16 * 4 + b2 / 64) % 4 * 64 + b2 % 64]
        (b64DecodeLoop fuel (b64EncodeBytes rest0)) = some (b0 :: b1 :: b2 :: rest0)
      rw [b64DecodeLoop_encodeBytes rest0 fuel hrest (by omega)]
      simp only [consBytes, List.cons_append, List.nil_append, Option.some.injEq,
        List.cons.injEq, and_true]
      exact ⟨by omega, by omega, by omega⟩

theorem b64DecodeChars_encodeBytes (bs : List Nat) (h : ∀ b ∈ bs, b < 256) :
    b64DecodeChars (b64EncodeBytes bs) = some bs :=
  b64DecodeLoop_encodeBytes bs _ h le_rfl

theorem b64DecodeStr_encodeStr (s : String) : b64DecodeStr (b64EncodeStr s) = some s := by
  have h1 : b64DecodeChars (b64EncodeStr s).data = some (utf8EncodeChars s.data) :=
    b64DecodeChars_encodeBytes _ (utf8EncodeChars_bytes_lt s.data)
  unfold b64DecodeStr
  rw [h1]
  show (match utf8DecodeChars (utf8EncodeChars s.data) with
    | some cs => some ((⟨cs⟩ : String))
    | none => none) = some s
  rw [utf8DecodeChars_encodeChars]

theorem OneFlip.ne {xs ys : List Char} (h : OneFlip xs ys) : xs ≠ ys := by
  rcases h with ⟨pre, a, b, suf, hab, rfl, rfl⟩
  intro he
  exact hab (List.cons.injEq .. ▸ (List.append_cancel_left he) |>.1)

theorem colon_string_data : (":" : String).data = [':'] := rfl

theorem splitColon_five (d ts tt salt sig : String)
    (hd : ':' ∉ d.data) (hts : ':' ∉ ts.data) (htt : ':' ∉ tt.data)
    (hsalt : ':' ∉ salt.data) (hsig : ':' ∉ sig.data) :
    splitColon (d ++ ":" ++ ts ++ ":" ++ tt ++ ":" ++ salt ++ ":" ++ sig) =
      [d, ts, tt, salt, sig] := by
  unfold splitColon
  have hdata : (d ++ ":" ++ ts ++ ":" ++ tt ++ ":" ++ salt ++ ":" ++ sig).data =
      d.data ++ ':' :: (ts.data ++ ':' :: (tt.data ++ ':' :: (salt.data ++ ':' :: sig.data))) := by
    simp [data_append, colon_string_data, List.append_assoc]
  rw [hdata, splitColonChars_append _ _ hd, splitColonChars_append _ _ hts,
    splitColonChars_append _ _ htt, splitColonChars_append _ _ hsalt,
    splitColonChars_noColon _ hsig]
  rfl

theorem compare_digest_self (a : String) (h : ∀ c ∈ a.data, c.toNat < 128) :
    compare_digest a a = some true := by
  unfold compare_digest
  rw [if_pos]
  · simp
  · simp only [Bool.and_self, List.all_eq_true, decide_eq_true_eq]
    exact h

/-- Collapsing the decode-and-split prelude of `verify_token` on a
well-formed five-field token. -/
theorem verify_token_parts (mac : String → String) (now : Nat)
    (d ts tt salt sig : String)
    (hd : ':' ∉ d.data) (hts : ':' ∉ ts.data) (htt : ':' ∉ tt.data)
    (hsalt : ':' ∉ salt.data) (hsig : ':' ∉ sig.data) :
    verify_token mac now (b64EncodeStr (d ++ ":" ++ ts ++ ":" ++ tt ++ ":" ++ salt ++ ":" ++ sig)) =
      (match parseInt ts, parseInt tt with
      | some timestamp, some ttl =>
        if (now : Int) > timestamp + ttl then
          (false, "Token expired (TTL: " ++ intToStr ttl ++ "s, age: " ++
            intToStr ((now : Int) - timestamp) ++ "s)", d)
        else
          match compare_digest (mac (d ++ ":" ++ ts ++ ":" ++ tt ++ ":" ++ salt)) sig with
          | none => (false, "Token verification error: non-ASCII digest comparison", "")
          | some ok =>
            if ok then (true, "Token verified successfully", d)
            else (false, "Invalid signature (token may be forged or tampered)", "")
      | _, _ => (false, "Invalid timestamp or TTL", "")) := by
  unfold verify_token
  rw [b64DecodeStr_encodeStr]
  simp only [splitColon_five d ts tt salt sig hd hts htt hsalt hsig]

/-- Verification immediately after generation succeeds, for any MAC
function, provided the serialized fields are colon-free and the TTL is
nonnegative at verification time. -/
theorem verify_generate (mac : String → String) (domain : String) (ttl : Int)
    (now : Nat) (salt : String)
    (hmac : macOk mac)
    (hdom : ':' ∉ (normalize_domain domain).data)
    (hsalt : ':' ∉ salt.data)
    (httl : 0 ≤ ttl) :
    verify_token mac now (generate_token mac domain ttl now salt) =
      (true, "Token verified successfully", normalize_domain domain) := by
  show verify_token mac now (b64EncodeStr (normalize_domain domain ++ ":" ++ natToStr now ++
    ":" ++ intToStr ttl ++ ":" ++ salt ++ ":" ++
    mac (normalize_domain domain ++ ":" ++ natToStr now ++ ":" ++ intToStr ttl ++ ":" ++ salt))) =
    (true, "Token verified successfully", normalize_domain domain)
  rw [verify_token_parts mac now (normalize_domain domain) (natToStr now) (intToStr ttl) salt
    (mac (normalize_domain domain ++ ":" ++ natToStr now ++ ":" ++ intToStr ttl ++ ":" ++ salt))
    hdom (natToStr_noColon now) (intToStr_noColon ttl) hsalt
    (hmac (normalize_domain domain ++ ":" ++ natToStr now ++ ":" ++ intToStr ttl ++ ":" ++ salt)).2]
  simp only [parseInt_natToStr, parseInt_intToStr]
  rw [if_neg (by omega)]
  rw [compare_digest_self _
    (hmac (normalize_domain domain ++ ":" ++ natToStr now ++ ":" ++ intToStr ttl ++ ":" ++ salt)).1]
  rfl

/-! ### Lemmas about `normalize_domain` -/

theorem asciiLower_data (s : String) : (asciiLower s).data = s.data.map asciiLowerChar := rfl

theorem normalize_domain_https (p s : String) (hp : asciiLower p = "https://") :
    normalize_domain (p ++ s) = s := by
  have hlen : p.data.length = 8 := by
    have h := congrArg (fun t => t.data.length) hp
    simpa [asciiLower] using h
  have htake : (p ++ s).data.take 8 = p.data := by
    rw [data_append, ← hlen, List.take_left]
  have hdrop : (p ++ s).data.drop 8 = s.data := by
    rw [data_append, ← hlen, List.drop_left]
  unfold normalize_domain
  rw [htake, hdrop]
  have hpe : asciiLower (⟨p.data⟩ : String) = "https://" := hp
  rw [if_pos hpe]

theorem normalize_domain_http (p s : String) (hp : asciiLower p = "http://") :
    normalize_domain (p ++ s) = s := by
  have hlen : p.data.length = 7 := by
    have h := congrArg (fun t => t.data.length) hp
    simpa [asciiLower] using h
  have hmapp : p.data.map asciiLowerChar = "http://".data := congrArg String.data hp
  have htake8 : (p ++ s).data.take 8 = p.data ++ s.data.take 1 := by
    rw [data_append, List.take_append_eq_append_take,
      List.take_of_length_le (by omega), hlen]
  have hfirst : asciiLower (⟨(p ++ s).data.take 8⟩ : String) ≠ "https://" := by
    intro H
    have Hd : ((p ++ s).data.take 8).map asciiLowerChar = "https://".data :=
      congrArg String.data H
    rw [htake8, List.map_append, hmapp] at Hd
    rcases hx : (s.data.take 1).map asciiLowerChar with _ | ⟨x, xs⟩
    · rw [hx] at Hd
      simp only [List.append_nil] at Hd
      exact absurd Hd (by decide)
    · rw [hx] at Hd
      have h7 : "http://".data = ['h', 't', 't', 'p', ':', '/', '/'] := rfl
      have h8 : "https://".data = ['h', 't', 't', 'p', 's', ':', '/', '/'] := rfl
      rw [h7, h8] at Hd
      simp at Hd
  have htake7 : (p ++ s).data.take 7 = p.data := by
    rw [data_append, ← hlen, List.take_left]
  have hdrop7 : (p ++ s).data.drop 7 = s.data := by
    rw [data_append, ← hlen, List.drop_left]
  unfold normalize_domain
  rw [if_neg hfirst, htake7, hdrop7]
  have hpe : asciiLower (⟨p.data⟩ : String) = "http://" := hp
  rw [if_pos hpe]

/-- `normalize_domain` either leaves its input unchanged or removes one
leading piece whose lower-casing is `http://` or `https://` — it never
changes anything else (no lowercasing, no trailing-slash trimming). -/
theorem normalize_domain_cases (s : String) :
    normalize_domain s = s ∨
    (∃ p r, s = p ++ r ∧ asciiLower p = "https://" ∧ normalize_domain s = r) ∨
    (∃ p r, s = p ++ r ∧ asciiLower p = "http://" ∧ normalize_domain s = r) := by
  unfold normalize_domain
  split_ifs with h1 h2
  · right; left
    refine ⟨⟨s.data.take 8⟩, ⟨s.data.drop 8⟩, ?_, h1, rfl⟩
    show s = (⟨s.data.take 8⟩ : String) ++ (⟨s.data.drop 8⟩ : String)
    have he : (⟨s.data.take 8⟩ : String) ++ (⟨s.data.drop 8⟩ : String) =
        (⟨s.data.take 8 ++ s.data.drop 8⟩ : String) := rfl
    rw [he, List.take_append_drop]
  · right; right
    refine ⟨⟨s.data.take 7⟩, ⟨s.data.drop 7⟩, ?_, h2, rfl⟩
    show s = (⟨s.data.take 7⟩ : String) ++ (⟨s.data.drop 7⟩ : String)
    have he : (⟨s.data.take 7⟩ : String) ++ (⟨s.data.drop 7⟩ : String) =
        (⟨s.data.take 7 ++ s.data.drop 7⟩ : String) := rfl
    rw [he, List.take_append_drop]
  · left; rfl

/-! ## Claim C1 -/

/-- C1: `check_domain_security` issues at most two network requests on
every execution path: exactly one request (the HTTPS GET) when the HTTPS
attempt succeeds or raises an SSL/certificate-class error (classified as a
key-exchange or certificate error), exactly two requests (the HTTPS GET
then one HTTP fallback GET) when the HTTPS attempt fails with a non-TLS
error, and zero requests when the whitelist is enforced and the domain is
not whitelisted (the domain error is raised before any network call). -/
theorem c1_request_budget :
    (∀ gov domain skip hA tA, (check_domain_security gov domain skip hA tA).2 ≤ 2) ∧
    (∀ gov domain hA tA, domain ∉ gov →
      check_domain_security gov domain false hA tA =
        (SecurityOutcome.domainError
          ("Domain " ++ sq ++ domain ++ sq ++ " is not in the government domains list"), 0)) ∧
    (∀ gov domain skip finalUrl history tA, (skip = true ∨ domain ∈ gov) →
      (check_domain_security gov domain skip (HttpsAttempt.success finalUrl history) tA).2 = 1) ∧
    (∀ gov domain skip err tA, (skip = true ∨ domain ∈ gov) →
      (∃ m, check_domain_security gov domain skip (HttpsAttempt.sslError err) tA =
          (SecurityOutcome.keyExchangeError m, 1)) ∨
      (∃ m, check_domain_security gov domain skip (HttpsAttempt.sslError err) tA =
          (SecurityOutcome.certificateError m, 1))) ∧
    (∀ gov domain skip err tA, (skip = true ∨ domain ∈ gov) →
      (check_domain_security gov domain skip (HttpsAttempt.otherError err) tA).2 = 2) := by
  have hpass : ∀ (gov : List String) (domain : String) (skip : Bool),
      (skip = true ∨ domain ∈ gov) → (!skip && !(decide (domain ∈ gov))) = false := by
    rintro gov domain skip (rfl | hm)
    · rfl
    · simp [hm]
  refine ⟨?_, ?_, ?_, ?_, ?_⟩
  · intro gov domain skip hA tA
    unfold check_domain_security
    split
    · simp
    · cases hA with
      | success finalUrl history =>
        cases hr : _check_http_redirects finalUrl history ("https://" ++ domain) <;> simp [hr]
      | sslError err =>
        by_cases hk : matchesKexIndicator (asciiLower err) <;> simp [hk]
      | otherError err =>
        cases tA <;> simp
  · intro gov domain hA tA hnm
    unfold check_domain_security
    rw [if_pos (by simp [hnm])]
  · intro gov domain skip finalUrl history tA h
    unfold check_domain_security
    rw [if_neg (by rw [hpass gov domain skip h]; exact Bool.false_ne_true)]
    cases hr : _check_http_redirects finalUrl history ("https://" ++ domain) <;> simp [hr]
  · intro gov domain skip err tA h
    unfold check_domain_security
    rw [if_neg (by rw [hpass gov domain skip h]; exact Bool.false_ne_true)]
    by_cases hk : matchesKexIndicator (asciiLower err)
    · left
      exact ⟨_parse_key_exchange_error err domain, by simp [hk]⟩
    · right
      exact ⟨_parse_ssl_error err ("https://" ++ domain), by simp [hk]⟩
  · intro gov domain skip err tA h
    unfold check_domain_security
    rw [if_neg (by rw [hpass gov domain skip h]; exact Bool.false_ne_true)]
    cases tA <;> simp

theorem c1_request_budget_witness :
    (("w.gov.pl" : String) ∉ ([] : List String)) ∧
    check_domain_security [] "w.gov.pl" false
      (HttpsAttempt.success "https://w.gov.pl" []) HttpAttempt.success =
      (SecurityOutcome.domainError
        ("Domain " ++ sq ++ "w.gov.pl" ++ sq ++ " is not in the government domains list"), 0) ∧
    (("a.gov.pl" : String) ∈ ["a.gov.pl"]) ∧
    (check_domain_security ["a.gov.pl"] "a.gov.pl" false
      (HttpsAttempt.otherError "dns failure") (HttpAttempt.failure "refused")).2 = 2 ∧
    (check_domain_security ["a.gov.pl"] "a.gov.pl" false
      (HttpsAttempt.success "https://a.gov.pl" []) HttpAttempt.success).2 = 1 :=
  ⟨by simp,
    c1_request_budget.2.1 [] "w.gov.pl" (HttpsAttempt.success "https://w.gov.pl" [])
      HttpAttempt.success (by simp),
    by simp,
    c1_request_budget.2.2.2.2 ["a.gov.pl"] "a.gov.pl" false "dns failure"
      (HttpAttempt.failure "refused") (Or.inr (by simp)),
    c1_request_budget.2.2.1 ["a.gov.pl"] "a.gov.pl" false "https://a.gov.pl" []
      HttpAttempt.success (Or.inr (by simp))⟩

theorem macDemo_ok : macOk macDemo := by
  intro m
  refine ⟨?_, ?_⟩
  · intro c hc
    have h2 : ("ab" : String).data = ['a', 'b'] := rfl
    rw [show macDemo m = "ab" from rfl, h2] at hc
    simp only [List.mem_cons, List.not_mem_nil, or_false] at hc
    rcases hc with rfl | rfl <;> decide
  · rw [show macDemo m = "ab" from rfl]
    decide

/-! ### Helper lemmas on the failure paths of `verify_token` -/

theorem verify_decode_fail (mac : String → String) (now : Nat) (token : String)
    (h : b64DecodeStr token = none) :
    verify_token mac now token =
      (false, "Token verification error: invalid token encoding", "") := by
  unfold verify_token
  rw [h]

theorem verify_format_err (mac : String → String) (now : Nat) (token td : String)
    (hdec : b64DecodeStr token = some td) (hlen : (splitColon td).length ≠ 5) :
    verify_token mac now token = (false, "Invalid token format", "") := by
  unfold verify_token
  simp only [hdec]
  rcases hsp : splitColon td with _ | ⟨a, _ | ⟨b, _ | ⟨c, _ | ⟨d, _ | ⟨e, _ | ⟨f, rest⟩⟩⟩⟩⟩⟩
  · rfl
  · rfl
  · rfl
  · rfl
  · rfl
  · exfalso
    rw [hsp] at hlen
    simp at hlen
  · rfl

theorem verify_token_fields (mac : String → String) (now : Nat) (token td : String)
    (d ts tt salt sig : String)
    (hdec : b64DecodeStr token = some td) (hsp : splitColon td = [d, ts, tt, salt, sig]) :
    verify_token mac now token =
      (match parseInt ts, parseInt tt with
      | some timestamp, some ttl =>
        if (now : Int) > timestamp + ttl then
          (false, "Token expired (TTL: " ++ intToStr ttl ++ "s, age: " ++
            intToStr ((now : Int) - timestamp) ++ "s)", d)
        else
          match compare_digest (mac (d ++ ":" ++ ts ++ ":" ++ tt ++ ":" ++ salt)) sig with
          | none => (false, "Token verification error: non-ASCII digest comparison", "")
          | some ok =>
            if ok then (true, "Token verified successfully", d)
            else (false, "Invalid signature (token may be forged or tampered)", "")
      | _, _ => (false, "Invalid timestamp or TTL", "")) := by
  unfold verify_token
  simp only [hdec, hsp]

theorem splitColon_join_length (d ts tt salt sig : String) :
    (splitColon (d ++ ":" ++ ts ++ ":" ++ tt ++ ":" ++ salt ++ ":" ++ sig)).length =
      d.data.count ':' + ts.data.count ':' + tt.data.count ':' + salt.data.count ':' +
        sig.data.count ':' + 5 := by
  unfold splitColon
  rw [List.length_map, splitColonChars_length]
  simp [data_append, colon_string_data, List.count_append, List.count_cons]
  omega

/-- Any five-field serialization whose MAC does not match the embedded
signature verifies to `valid = false` (whatever the flipped field makes of
the timestamp, TTL, or field count). -/
theorem verify_forged_false (mac : String → String) (now : Nat)
    (d ts tt salt sig : String)
    (hd : ':' ∉ d.data) (hsalt : ':' ∉ salt.data) (hsig : ':' ∉ sig.data)
    (hne : mac (d ++ ":" ++ ts ++ ":" ++ tt ++ ":" ++ salt) ≠ sig) :
    (verify_token mac now
      (b64EncodeStr (d ++ ":" ++ ts ++ ":" ++ tt ++ ":" ++ salt ++ ":" ++ sig))).1 = false := by
  by_cases hts : ':' ∈ ts.data
  · rw [verify_format_err mac now _ _ (b64DecodeStr_encodeStr _) (by
      rw [splitColon_join_length]
      have h1 : ts.data.count ':' ≠ 0 := fun h0 => (List.count_eq_zero.1 h0) hts
      omega)]
  · by_cases htt : ':' ∈ tt.data
    · rw [verify_format_err mac now _ _ (b64DecodeStr_encodeStr _) (by
        rw [splitColon_join_length]
        have h1 : tt.data.count ':' ≠ 0 := fun h0 => (List.count_eq_zero.1 h0) htt
        omega)]
    · rw [verify_token_parts mac now d ts tt salt sig hd hts htt hsalt hsig]
      rcases hpts : parseInt ts with _ | T
      · simp only [hpts]
      · rcases hptt : parseInt tt with _ | L
        · simp only [hpts, hptt]
        · simp only [hpts, hptt]
          by_cases hexp : (now : Int) > T + L
          · rw [if_pos hexp]
          · rw [if_neg hexp]
            rcases hcd : compare_digest (mac (d ++ ":" ++ ts ++ ":" ++ tt ++ ":" ++ salt)) sig
              with _ | ok
            · rfl
            · have hok : ok = false := by
                unfold compare_digest at hcd
                split_ifs at hcd with hcond
                injection hcd with h3
                rw [← h3]
                exact beq_eq_false_iff_ne.2 hne
              rw [hok]
              rfl

/-! ## Claim C2 -/

/-- C2 counterexample: the round trip fails as stated for the domain
`"a:b"` (its normalized form keeps the colon, so the decoded token splits
into six fields): with TTL `30 ≥ 1` and no clock advance, verification
reports an invalid token format instead of `valid = true` with the
normalized domain. -/
theorem c2_round_trip_counterexample :
    normalize_domain "a:b" = "a:b" ∧
    verify_token macDemo 1000 (generate_token macDemo "a:b" 30 1000 "00") =
      (false, "Invalid token format", "") := by
  constructor
  · rfl
  · decide

/-- C2 (amended): for every domain whose normalized form contains no
colon, every `ttl_seconds ≥ 1` and every master secret (any MAC function
with hex-digest-shaped output), verifying a token immediately after
generating it returns `valid = true` with the normalized input domain;
normalization strips a single leading `http://` or `https://` prefix
case-insensitively and changes nothing else. -/
theorem c2_round_trip :
    (∀ (mac : String → String) (domain : String) (ttl : Int) (now : Nat) (salt : String),
      macOk mac → ':' ∉ (normalize_domain domain).data → ':' ∉ salt.data → 1 ≤ ttl →
      verify_token mac now (generate_token mac domain ttl now salt) =
        (true, "Token verified successfully", normalize_domain domain)) ∧
    (∀ p s, asciiLower p = "https://" → normalize_domain (p ++ s) = s) ∧
    (∀ p s, asciiLower p = "http://" → normalize_domain (p ++ s) = s) ∧
    (∀ s, normalize_domain s = s ∨
      (∃ p r, s = p ++ r ∧ asciiLower p = "https://" ∧ normalize_domain s = r) ∨
      (∃ p r, s = p ++ r ∧ asciiLower p = "http://" ∧ normalize_domain s = r)) :=
  ⟨fun mac domain ttl now salt hm hd hs ht =>
      verify_generate mac domain ttl now salt hm hd hs (by omega),
    normalize_domain_https, normalize_domain_http, normalize_domain_cases⟩

theorem c2_round_trip_witness :
    verify_token macDemo 1700000000
      (generate_token macDemo "https://example.gov.pl" 30 1700000000 "aabb") =
      (true, "Token verified successfully", "example.gov.pl") ∧
    normalize_domain ("HTTPS://" ++ "bank.gov.pl") = "bank.gov.pl" := by
  refine ⟨?_, c2_round_trip.2.1 "HTTPS://" "bank.gov.pl" (by decide)⟩
  have h := c2_round_trip.1 macDemo "https://example.gov.pl" 30 1700000000 "aabb"
    macDemo_ok (by decide) (by decide) (by decide)
  rw [h]
  rfl

/-! ## Claim C3 -/

/-- C3 counterexample: on the valid fresh token for domain `"a"`
(TTL `30`, issued and checked at time `100`), flipping the single
character `'1'` of the timestamp field to `'x'` and re-encoding makes
`verify_token` fail with the reason `"Invalid timestamp or TTL"` — not a
signature-mismatch reason, contradicting the claim for the timestamp
field. -/
theorem c3_tamper_counterexample :
    verify_token macDemo 100 (generate_token macDemo "a" 30 100 "ff") =
      (true, "Token verified successfully", "a") ∧
    OneFlip (natToStr 100).data ("x00" : String).data ∧
    verify_token macDemo 100
      (b64EncodeStr ("a" ++ ":" ++ "x00" ++ ":" ++ "30" ++ ":" ++ "ff" ++ ":" ++ "ab")) =
      (false, "Invalid timestamp or TTL", "") := by
  refine ⟨by decide, ⟨[], '1', 'x', ['0', '0'], by decide, by decide, by decide⟩, by decide⟩

/-- C3 (amended): take any valid freshly generated token (colon-free
normalized domain and salt, nonnegative TTL, hex-digest-shaped MAC).
Flipping a single character of the signature field to a different ASCII
non-colon character makes verification fail with the signature-mismatch
reason; flipping a single character of the timestamp or TTL field yields
`valid = false` whenever the MAC of the altered serialization differs from
the original signature, but the reason may instead be the invalid
timestamp/TTL, token-format, expiry, or comparison-error one.  No flip
crashes: `verify_token` is total. -/
theorem c3_tamper_sensitivity (mac : String → String) (domain salt : String)
    (ttl : Int) (now : Nat)
    (hmac : macOk mac) (hdom : ':' ∉ (normalize_domain domain).data)
    (hsalt : ':' ∉ salt.data) (httl : 0 ≤ ttl) :
    (∀ sig2 : String,
      OneFlip (mac (normalize_domain domain ++ ":" ++ natToStr now ++ ":" ++ intToStr ttl ++
        ":" ++ salt)).data sig2.data →
      (∀ c ∈ sig2.data, c.toNat < 128) → ':' ∉ sig2.data →
      verify_token mac now (b64EncodeStr (normalize_domain domain ++ ":" ++ natToStr now ++
        ":" ++ intToStr ttl ++ ":" ++ salt ++ ":" ++ sig2)) =
        (false, "Invalid signature (token may be forged or tampered)", "")) ∧
    (∀ ts2 : String, OneFlip (natToStr now).data ts2.data →
      mac (normalize_domain domain ++ ":" ++ ts2 ++ ":" ++ intToStr ttl ++ ":" ++ salt) ≠
        mac (normalize_domain domain ++ ":" ++ natToStr now ++ ":" ++ intToStr ttl ++ ":" ++
          salt) →
      (verify_token mac now (b64EncodeStr (normalize_domain domain ++ ":" ++ ts2 ++ ":" ++
        intToStr ttl ++ ":" ++ salt ++ ":" ++ mac (normalize_domain domain ++ ":" ++
        natToStr now ++ ":" ++ intToStr ttl ++ ":" ++ salt)))).1 = false) ∧
    (∀ tt2 : String, OneFlip (intToStr ttl).data tt2.data →
      mac (normalize_domain domain ++ ":" ++ natToStr now ++ ":" ++ tt2 ++ ":" ++ salt) ≠
        mac (normalize_domain domain ++ ":" ++ natToStr now ++ ":" ++ intToStr ttl ++ ":" ++
          salt) →
      (verify_token mac now (b64EncodeStr (normalize_domain domain ++ ":" ++ natToStr now ++
        ":" ++ tt2 ++ ":" ++ salt ++ ":" ++ mac (normalize_domain domain ++ ":" ++
        natToStr now ++ ":" ++ intToStr ttl ++ ":" ++ salt)))).1 = false) := by
  refine ⟨?_, ?_, ?_⟩
  · intro sig2 hflip hascii hnc
    rw [verify_token_parts mac now _ _ _ _ _ hdom (natToStr_noColon now)
      (intToStr_noColon ttl) hsalt hnc]
    simp only [parseInt_natToStr, parseInt_intToStr]
    rw [if_neg (by omega)]
    have hne : mac (normalize_domain domain ++ ":" ++ natToStr now ++ ":" ++ intToStr ttl ++
        ":" ++ salt) ≠ sig2 := by
      intro he
      exact (OneFlip.ne hflip) (congrArg String.data he)
    have hcd : compare_digest (mac (normalize_domain domain ++ ":" ++ natToStr now ++ ":" ++
        intToStr ttl ++ ":" ++ salt)) sig2 = some false := by
      unfold compare_digest
      rw [if_pos (by
        simp only [Bool.and_eq_true, List.all_eq_true, decide_eq_true_eq]
        exact ⟨(hmac _).1, hascii⟩)]
      rw [beq_eq_false_iff_ne.2 hne]
    rw [hcd]
    rfl
  · intro ts2 hflip hne
    exact verify_forged_false mac now _ ts2 _ salt _ hdom hsalt (hmac _).2 hne
  · intro tt2 hflip hne
    exact verify_forged_false mac now _ _ tt2 salt _ hdom hsalt (hmac _).2 hne

theorem c3_tamper_sensitivity_witness :
    verify_token macFlip 100 (b64EncodeStr ("a" ++ ":" ++ "100" ++ ":" ++ "30" ++ ":" ++ "ff" ++
      ":" ++ "ac")) = (false, "Invalid signature (token may be forged or tampered)", "") ∧
    (verify_token macFlip 100 (b64EncodeStr ("a" ++ ":" ++ "200" ++ ":" ++ "30" ++ ":" ++ "ff" ++
      ":" ++ macFlip ("a" ++ ":" ++ "100" ++ ":" ++ "30" ++ ":" ++ "ff")))).1 = false ∧
    (verify_token macFlip 100 (b64EncodeStr ("a" ++ ":" ++ "100" ++ ":" ++ "39" ++ ":" ++ "ff" ++
      ":" ++ macFlip ("a" ++ ":" ++ "100" ++ ":" ++ "30" ++ ":" ++ "ff")))).1 = false := by
  have hmac : macOk macFlip := by
    intro m
    constructor
    · intro c hc
      unfold macFlip at hc
      split_ifs at hc
      · have h2 : ("ab" : String).data = ['a', 'b'] := rfl
        rw [h2] at hc
        simp only [List.mem_cons, List.not_mem_nil, or_false] at hc
        rcases hc with rfl | rfl <;> decide
      · have h2 : ("cd" : String).data = ['c', 'd'] := rfl
        rw [h2] at hc
        simp only [List.mem_cons, List.not_mem_nil, or_false] at hc
        rcases hc with rfl | rfl <;> decide
    · unfold macFlip
      split_ifs <;> decide
  have h := c3_tamper_sensitivity macFlip "a" "ff" 30 100 hmac (by decide) (by decide) (by decide)
  refine ⟨?_, ?_, ?_⟩
  · have h1 := h.1 "ac" ⟨['a'], 'b', 'c', [], by decide, by decide, by decide⟩
      (by intro c hc; revert hc
          have h2 : ("ac" : String).data = ['a', 'c'] := rfl
          rw [h2]
          intro hc
          simp only [List.mem_cons, List.not_mem_nil, or_false] at hc
          rcases hc with rfl | rfl <;> decide)
      (by decide)
    rw [show (normalize_domain "a" : String) = "a" from rfl,
      show natToStr 100 = "100" from rfl, show intToStr 30 = "30" from rfl] at h1
    exact h1
  · have h2 := h.2.1 "200" ⟨[], '1', '2', ['0', '0'], by decide, by decide, by decide⟩ (by decide)
    revert h2
    rw [show (normalize_domain "a" : String) = "a" from rfl,
      show natToStr 100 = "100" from rfl, show intToStr 30 = "30" from rfl]
    exact id
  · have h3 := h.2.2 "39" ⟨['3'], '0', '9', [], by decide, by decide, by decide⟩ (by decide)
    revert h3
    rw [show (normalize_domain "a" : String) = "a" from rfl,
      show natToStr 100 = "100" from rfl, show intToStr 30 = "30" from rfl]
    exact id

/-! ## Claim C4 -/

/-- C4 counterexample: the error text `"key exchange"` contains none of
the listed parse patterns (`bad_dh_value`, `dh key too small`,
`handshake failure`, `small`+`subgroup`, `composite`) and none of the
residual substrings `ssl`/`tls`/`cipher`, yet the classifier does not
re-raise it unchanged — it converts it into a generic
`KeyExchangeError`, because `"key exchange"` is in the indicator list
that gates the parser. -/
theorem c4_key_exchange_counterexample :
    (containsStr (asciiLower "key exchange") "bad_dh_value" = false ∧
     containsStr (asciiLower "key exchange") "bad dh value" = false ∧
     containsStr (asciiLower "key exchange") "dh key too small" = false ∧
     containsStr (asciiLower "key exchange") "dh_key_too_small" = false ∧
     containsStr (asciiLower "key exchange") "handshake failure" = false ∧
     containsStr (asciiLower "key exchange") "handshake_failure" = false ∧
     containsStr (asciiLower "key exchange") "small" = false ∧
     containsStr (asciiLower "key exchange") "composite" = false ∧
     containsStr (asciiLower "key exchange") "ssl" = false ∧
     containsStr (asciiLower "key exchange") "tls" = false ∧
     containsStr (asciiLower "key exchange") "cipher" = false) ∧
    check_weak_key_exchange_on_ssl_error "key exchange" "example.gov.pl" =
      KexCheckOutcome.raisedKeyExchange
        ("Domain example.gov.pl has a key exchange related error: key exchange") := by
  constructor
  · refine ⟨by decide, by decide, by decide, by decide, by decide, by decide, by decide,
      by decide, by decide, by decide, by decide⟩
  · decide

/-- C4 (amended): the key-exchange classifier re-raises an error
unchanged exactly when its lower-cased text matches no key-exchange
indicator (the indicator list adds `no shared cipher` and `key exchange`
to the parse patterns); when an indicator matches, the parser raises one
`KeyExchangeError` whose message follows the ordered pattern chain —
`bad_dh_value`/`bad dh value`, `dh key too small`/`dh_key_too_small`,
`handshake failure`/`handshake_failure`, `small`+`subgroup`, `composite`,
then the `ssl`/`tls`/`cipher` residual bucket, and otherwise a generic
key-exchange message.  In particular an indicator-matching error with no
parse pattern (such as one containing only `key exchange`) is converted
into the generic bucket rather than re-raised. -/
theorem c4_key_exchange_classifier :
    (∀ errText domain : String, matchesKexIndicator (asciiLower errText) = false →
      check_weak_key_exchange_on_ssl_error errText domain = KexCheckOutcome.reraisedOriginal) ∧
    (∀ errText domain : String, matchesKexIndicator (asciiLower errText) = true →
      check_weak_key_exchange_on_ssl_error errText domain =
        KexCheckOutcome.raisedKeyExchange (_parse_key_exchange_error errText domain)) ∧
    (∀ errText domain : String,
      ((containsStr (asciiLower errText) "bad_dh_value" ||
          containsStr (asciiLower errText) "bad dh value") = true →
        _parse_key_exchange_error errText domain =
          "Domain " ++ domain ++ " uses invalid or weak Diffie-Hellman parameters (bad DH value). " ++
            "This is vulnerable to attacks and rejected by modern clients.") ∧
      ((containsStr (asciiLower errText) "bad_dh_value" ||
          containsStr (asciiLower errText) "bad dh value") = false →
        (containsStr (asciiLower errText) "dh key too small" ||
          containsStr (asciiLower errText) "dh_key_too_small") = true →
        _parse_key_exchange_error errText domain =
          "Domain " ++ domain ++ " uses weak Diffie-Hellman key exchange parameters (key too small). " ++
            "This is vulnerable to attacks and rejected by modern clients.") ∧
      ((containsStr (asciiLower errText) "bad_dh_value" ||
          containsStr (asciiLower errText) "bad dh value") = false →
        (containsStr (asciiLower errText) "dh key too small" ||
          containsStr (asciiLower errText) "dh_key_too_small") = false →
        (containsStr (asciiLower errText) "handshake failure" ||
          containsStr (asciiLower errText) "handshake_failure") = true →
        _parse_key_exchange_error errText domain =
          "Domain " ++ domain ++ " SSL handshake failed, possibly due to weak key exchange " ++
            "parameters. Error: " ++ errText) ∧
      ((containsStr (asciiLower errText) "bad_dh_value" ||
          containsStr (asciiLower errText) "bad dh value") = false →
        (containsStr (asciiLower errText) "dh key too small" ||
          containsStr (asciiLower errText) "dh_key_too_small") = false →
        (containsStr (asciiLower errText) "handshake failure" ||
          containsStr (asciiLower errText) "handshake_failure") = false →
        (containsStr (asciiLower errText) "small" &&
          containsStr (asciiLower errText) "subgroup") = true →
        _parse_key_exchange_error errText domain =
          "Domain " ++ domain ++
            " uses Diffie-Hellman parameters vulnerable to small subgroup attacks.") ∧
      ((containsStr (asciiLower errText) "bad_dh_value" ||
          containsStr (asciiLower errText) "bad dh value") = false →
        (containsStr (asciiLower errText) "dh key too small" ||
          containsStr (asciiLower errText) "dh_key_too_small") = false →
        (containsStr (asciiLower errText) "handshake failure" ||
          containsStr (asciiLower errText) "handshake_failure") = false →
        (containsStr (asciiLower errText) "small" &&
          containsStr (asciiLower errText) "subgroup") = false →
        containsStr (asciiLower errText) "composite" = true →
        _parse_key_exchange_error errText domain =
          "Domain " ++ domain ++
            " uses Diffie-Hellman parameters with composite modulus (vulnerable).") ∧
      ((containsStr (asciiLower errText) "bad_dh_value" ||
          containsStr (asciiLower errText) "bad dh value") = false →
        (containsStr (asciiLower errText) "dh key too small" ||
          containsStr (asciiLower errText) "dh_key_too_small") = false →
        (containsStr (asciiLower errText) "handshake failure" ||
          containsStr (asciiLower errText) "handshake_failure") = false →
        (containsStr (asciiLower errText) "small" &&
          containsStr (asciiLower errText) "subgroup") = false →
        containsStr (asciiLower errText) "composite" = false →
        (containsStr (asciiLower errText) "ssl" || containsStr (asciiLower errText) "tls" ||
          containsStr (asciiLower errText) "cipher") = true →
        _parse_key_exchange_error errText domain =
          "Domain " ++ domain ++ " has key exchange or cipher suite issues: " ++ errText) ∧
      ((containsStr (asciiLower errText) "bad_dh_value" ||
          containsStr (asciiLower errText) "bad dh value") = false →
        (containsStr (asciiLower errText) "dh key too small" ||
          containsStr (asciiLower errText) "dh_key_too_small") = false →
        (containsStr (asciiLower errText) "handshake failure" ||
          containsStr (asciiLower errText) "handshake_failure") = false →
        (containsStr (asciiLower errText) "small" &&
          containsStr (asciiLower errText) "subgroup") = false →
        containsStr (asciiLower errText) "composite" = false →
        (containsStr (asciiLower errText) "ssl" || containsStr (asciiLower errText) "tls" ||
          containsStr (asciiLower errText) "cipher") = false →
        _parse_key_exchange_error errText domain =
          "Domain " ++ domain ++ " has a key exchange related error: " ++ errText)) := by
  refine ⟨?_, ?_, ?_⟩
  · intro errText domain hm
    unfold check_weak_key_exchange_on_ssl_error
    rw [if_neg (by simp [hm])]
  · intro errText domain hm
    unfold check_weak_key_exchange_on_ssl_error
    rw [if_pos hm]
  · intro errText domain
    refine ⟨?_, ?_, ?_, ?_, ?_, ?_, ?_⟩
    · intro h1
      unfold _parse_key_exchange_error
      rw [if_pos h1]
    · intro h1 h2
      unfold _parse_key_exchange_error
      rw [if_neg (by simp [h1]), if_pos h2]
    · intro h1 h2 h3
      unfold _parse_key_exchange_error
      rw [if_neg (by simp [h1]), if_neg (by simp [h2]), if_pos h3]
    · intro h1 h2 h3 h4
      unfold _parse_key_exchange_error
      rw [if_neg (by simp [h1]), if_neg (by simp [h2]), if_neg (by simp [h3]), if_pos h4]
    · intro h1 h2 h3 h4 h5
      unfold _parse_key_exchange_error
      rw [if_neg (by simp [h1]), if_neg (by simp [h2]), if_neg (by simp [h3]),
        if_neg (by simp [h4]), if_pos h5]
    · intro h1 h2 h3 h4 h5 h6
      unfold _parse_key_exchange_error
      rw [if_neg (by simp [h1]), if_neg (by simp [h2]), if_neg (by simp [h3]),
        if_neg (by simp [h4]), if_neg (by simp [h5]), if_pos h6]
    · intro h1 h2 h3 h4 h5 h6
      unfold _parse_key_exchange_error
      rw [if_neg (by simp [h1]), if_neg (by simp [h2]), if_neg (by simp [h3]),
        if_neg (by simp [h4]), if_neg (by simp [h5]), if_neg (by simp [h6])]

theorem c4_key_exchange_classifier_witness :
    check_weak_key_exchange_on_ssl_error "certificate has expired" "d.gov.pl" =
      KexCheckOutcome.reraisedOriginal ∧
    check_weak_key_exchange_on_ssl_error "dh key too small" "d.gov.pl" =
      KexCheckOutcome.raisedKeyExchange
        (_parse_key_exchange_error "dh key too small" "d.gov.pl") ∧
    _parse_key_exchange_error "bad_dh_value seen" "d.gov.pl" =
      "Domain " ++ "d.gov.pl" ++ " uses invalid or weak Diffie-Hellman parameters (bad DH value). " ++
        "This is vulnerable to attacks and rejected by modern clients." :=
  ⟨c4_key_exchange_classifier.1 "certificate has expired" "d.gov.pl" (by decide),
   c4_key_exchange_classifier.2.1 "dh key too small" "d.gov.pl" (by decide),
   (c4_key_exchange_classifier.2.2 "bad_dh_value seen" "d.gov.pl").1 (by decide)⟩

/-! ## Claim C5 -/

/-- C5: expiry is checked before the signature.  A well-formed five-field
token whose `issuedAt + ttl` lies in the past verifies to `valid = false`
with a reason that carries the elapsed age and contains `"expired"` and
returns the embedded domain — whatever the embedded signature is.  On a
signature mismatch the returned domain is empty, and the embedded domain
is returned only on full success or on the expiry path. -/
theorem c5_expiry_before_signature :
    (∀ (mac : String → String) (now : Nat) (token td d ts tt salt sig : String) (T L : Int),
      b64DecodeStr token = some td → splitColon td = [d, ts, tt, salt, sig] →
      parseInt ts = some T → parseInt tt = some L → (now : Int) > T + L →
      verify_token mac now token =
        (false, "Token expired (TTL: " ++ intToStr L ++ "s, age: " ++
          intToStr ((now : Int) - T) ++ "s)", d) ∧
      containsStr ("Token expired (TTL: " ++ intToStr L ++ "s, age: " ++
        intToStr ((now : Int) - T) ++ "s)") "expired" = true) ∧
    (∀ (mac : String → String) (now : Nat) (token td d ts tt salt sig : String) (T L : Int),
      b64DecodeStr token = some td → splitColon td = [d, ts, tt, salt, sig] →
      parseInt ts = some T → parseInt tt = some L → ¬((now : Int) > T + L) →
      compare_digest (mac (d ++ ":" ++ ts ++ ":" ++ tt ++ ":" ++ salt)) sig = some false →
      verify_token mac now token =
        (false, "Invalid signature (token may be forged or tampered)", "")) ∧
    (∀ (mac : String → String) (now : Nat) (token : String),
      (verify_token mac now token).2.2 ≠ "" →
      (verify_token mac now token).1 = true ∨
      startsWithStr (verify_token mac now token).2.1 "Token expired" = true) := by
  refine ⟨?_, ?_, ?_⟩
  · intro mac now token td d ts tt salt sig T L hdec hsp hT hL hexp
    constructor
    · rw [verify_token_fields mac now token td d ts tt salt sig hdec hsp]
      simp only [hT, hL]
      rw [if_pos hexp]
    · unfold containsStr
      rw [subChars_iff]
      refine ⟨"Token ".data, " (TTL: ".data ++ (intToStr L).data ++ "s, age: ".data ++
        (intToStr ((now : Int) - T)).data ++ "s)".data, ?_⟩
      have hdc : ("Token expired (TTL: " : String).data =
          "Token ".data ++ ("expired".data ++ " (TTL: ".data) := rfl
      simp [data_append, hdc, List.append_assoc]
  · intro mac now token td d ts tt salt sig T L hdec hsp hT hL hexp hcd
    rw [verify_token_fields mac now token td d ts tt salt sig hdec hsp]
    simp only [hT, hL]
    rw [if_neg hexp, hcd]
    rfl
  · intro mac now token
    rcases hdec : b64DecodeStr token with _ | td
    · rw [verify_decode_fail mac now token hdec]
      intro h
      exact absurd rfl h
    · rcases hsp : splitColon td with _ | ⟨a, _ | ⟨b, _ | ⟨c, _ | ⟨d, _ | ⟨e, _ | ⟨f, rest⟩⟩⟩⟩⟩⟩
      case nil =>
        rw [verify_format_err mac now token td hdec (by rw [hsp]; simp)]
        intro h
        exact absurd rfl h
      case cons.nil =>
        rw [verify_format_err mac now token td hdec (by rw [hsp]; simp)]
        intro h
        exact absurd rfl h
      case cons.cons.nil =>
        rw [verify_format_err mac now token td hdec (by rw [hsp]; simp)]
        intro h
        exact absurd rfl h
      case cons.cons.cons.nil =>
        rw [verify_format_err mac now token td hdec (by rw [hsp]; simp)]
        intro h
        exact absurd rfl h
      case cons.cons.cons.cons.nil =>
        rw [verify_format_err mac now token td hdec (by rw [hsp]; simp)]
        intro h
        exact absurd rfl h
      case cons.cons.cons.cons.cons.cons =>
        rw [verify_format_err mac now token td hdec (by rw [hsp]; simp)]
        intro h
        exact absurd rfl h
      case cons.cons.cons.cons.cons.nil =>
        rw [verify_token_fields mac now token td a b c d e hdec hsp]
        rcases hT : parseInt b with _ | T
        · simp only [hT]
          intro h
          exact absurd rfl h
        · rcases hL : parseInt c with _ | L
          · simp only [hT, hL]
            intro h
            exact absurd rfl h
          · simp only [hT, hL]
            by_cases hexp : (now : Int) > T + L
            · rw [if_pos hexp]
              intro _
              right
              unfold startsWithStr
              rw [leadChars_iff]
              refine ⟨" (TTL: ".data ++ (intToStr L).data ++ "s, age: ".data ++
                (intToStr ((now : Int) - T)).data ++ "s)".data, ?_⟩
              have hdc : ("Token expired (TTL: " : String).data =
                  "Token expired".data ++ " (TTL: ".data := rfl
              simp [data_append, hdc, List.append_assoc]
            · rw [if_neg hexp]
              rcases hcd : compare_digest (mac (a ++ ":" ++ b ++ ":" ++ c ++ ":" ++ d)) e
                with _ | ok
              · intro h
                exact absurd rfl h
              · cases ok
                · intro h
                  exact absurd rfl h
                · intro _
                  left
                  rfl

theorem c5_expiry_before_signature_witness :
    verify_token macDemo 200
      (b64EncodeStr ("a" ++ ":" ++ "100" ++ ":" ++ "30" ++ ":" ++ "ff" ++ ":" ++ "zz")) =
      (false, "Token expired (TTL: 30s, age: 100s)", "a") ∧
    verify_token macDemo 100
      (b64EncodeStr ("a" ++ ":" ++ "100" ++ ":" ++ "30" ++ ":" ++ "ff" ++ ":" ++ "zz")) =
      (false, "Invalid signature (token may be forged or tampered)", "") ∧
    ((verify_token macDemo 200
        (b64EncodeStr ("a" ++ ":" ++ "100" ++ ":" ++ "30" ++ ":" ++ "ff" ++ ":" ++ "zz"))).1 =
      true ∨
      startsWithStr (verify_token macDemo 200
        (b64EncodeStr ("a" ++ ":" ++ "100" ++ ":" ++ "30" ++ ":" ++ "ff" ++ ":" ++ "zz"))).2.1
        "Token expired" = true) := by
  refine ⟨?_, ?_, ?_⟩
  · have h := (c5_expiry_before_signature.1 macDemo 200
      (b64EncodeStr ("a" ++ ":" ++ "100" ++ ":" ++ "30" ++ ":" ++ "ff" ++ ":" ++ "zz"))
      "a:100:30:ff:zz" "a" "100" "30" "ff" "zz"
      100 30 (by decide) (by decide) (by decide) (by decide) (by decide)).1
    rw [h]
    decide
  · exact c5_expiry_before_signature.2.1 macDemo 100
      (b64EncodeStr ("a" ++ ":" ++ "100" ++ ":" ++ "30" ++ ":" ++ "ff" ++ ":" ++ "zz"))
      "a:100:30:ff:zz" "a" "100" "30" "ff" "zz"
      100 30 (by decide) (by decide) (by decide) (by decide) (by decide) (by decide)
  · exact c5_expiry_before_signature.2.2 macDemo 200
      (b64EncodeStr ("a" ++ ":" ++ "100" ++ ":" ++ "30" ++ ":" ++ "ff" ++ ":" ++ "zz")) (by decide)

/-! ## Claim C6 -/

/-- C6: `verify_token` never raises — it is total, and each malformed
input returns `valid = false` with a reason string: the caught
base64/UTF-8 decode failure returns the `Token verification error`
reason, a decoded field count different from five returns
`Invalid token format`, a non-integer timestamp or TTL returns
`Invalid timestamp or TTL`, and the three reasons are pairwise
distinct (so the format case is distinguishable from the timestamp
case, also against the decode-failure path). -/
theorem c6_fails_closed :
    (∀ (mac : String → String) (now : Nat) (token : String),
      b64DecodeStr token = none →
      verify_token mac now token =
        (false, "Token verification error: invalid token encoding", "")) ∧
    (∀ (mac : String → String) (now : Nat) (token td : String),
      b64DecodeStr token = some td → (splitColon td).length ≠ 5 →
      verify_token mac now token = (false, "Invalid token format", "")) ∧
    (∀ (mac : String → String) (now : Nat) (token td d ts tt salt sig : String),
      b64DecodeStr token = some td → splitColon td = [d, ts, tt, salt, sig] →
      (parseInt ts = none ∨ parseInt tt = none) →
      verify_token mac now token = (false, "Invalid timestamp or TTL", "")) ∧
    (("Token verification error: invalid token encoding" : String) ≠ "Invalid token format" ∧
      ("Token verification error: invalid token encoding" : String) ≠
        "Invalid timestamp or TTL" ∧
      ("Invalid token format" : String) ≠ "Invalid timestamp or TTL") := by
  refine ⟨verify_decode_fail, verify_format_err, ?_, by decide, by decide, by decide⟩
  intro mac now token td d ts tt salt sig hdec hsp hpp
  rw [verify_token_fields mac now token td d ts tt salt sig hdec hsp]
  rcases hT : parseInt ts with _ | T
  · simp only [hT]
  · rcases hpp with hnone | hnone
    · exact absurd hT (by rw [hnone]; exact fun h => Option.noConfusion h)
    · simp only [hT, hnone]

theorem c6_fails_closed_witness :
    verify_token macDemo 100 "!" =
      (false, "Token verification error: invalid token encoding", "") ∧
    verify_token macDemo 100 (b64EncodeStr "a:b") = (false, "Invalid token format", "") ∧
    verify_token macDemo 100 (b64EncodeStr "a:xx:30:ff:ab") =
      (false, "Invalid timestamp or TTL", "") :=
  ⟨c6_fails_closed.1 macDemo 100 "!" (by decide),
    c6_fails_closed.2.1 macDemo 100 (b64EncodeStr "a:b") "a:b" (by decide) (by decide),
    c6_fails_closed.2.2.1 macDemo 100 (b64EncodeStr "a:xx:30:ff:ab") "a:xx:30:ff:ab"
      "a" "xx" "30" "ff" "ab" (by decide) (by decide) (Or.inl (by decide))⟩

/-! ## Claim C7 -/

/-- C7: for a non-empty retrieved chain, `check_ca_chain` returns `true`
exactly when some certificate's subject CN/O match the expected root CA
or the last certificate's issuer CN/O both match; in every other case it
raises a certificate error whose message names both the expected CN and
the observed issuer CN of the last certificate. -/
theorem c7_ca_chain (domain : String) (chain : List CertInfo) (hne : chain ≠ []) :
    (check_ca_chain domain chain = Except.ok true ↔
      ((∃ cert ∈ chain, certMatchesRoot cert = true) ∨
        ((chain.getLastD ⟨none, none, none, none⟩).issuerCN == some EXPECTED_ROOT_CA_CN &&
          (chain.getLastD ⟨none, none, none, none⟩).issuerO == some EXPECTED_ROOT_CA_ORG) =
          true)) ∧
    (¬((∃ cert ∈ chain, certMatchesRoot cert = true) ∨
        ((chain.getLastD ⟨none, none, none, none⟩).issuerCN == some EXPECTED_ROOT_CA_CN &&
          (chain.getLastD ⟨none, none, none, none⟩).issuerO == some EXPECTED_ROOT_CA_ORG) =
          true) →
      check_ca_chain domain chain =
        Except.error ("Domain " ++ domain ++ " uses different root CA. Expected CN=" ++ sq ++
          EXPECTED_ROOT_CA_CN ++ sq ++ ", got CN=" ++ sq ++
          optStr (chain.getLastD ⟨none, none, none, none⟩).issuerCN ++ sq) ∧
      containsStr ("Domain " ++ domain ++ " uses different root CA. Expected CN=" ++ sq ++
          EXPECTED_ROOT_CA_CN ++ sq ++ ", got CN=" ++ sq ++
          optStr (chain.getLastD ⟨none, none, none, none⟩).issuerCN ++ sq)
        EXPECTED_ROOT_CA_CN = true ∧
      containsStr ("Domain " ++ domain ++ " uses different root CA. Expected CN=" ++ sq ++
          EXPECTED_ROOT_CA_CN ++ sq ++ ", got CN=" ++ sq ++
          optStr (chain.getLastD ⟨none, none, none, none⟩).issuerCN ++ sq)
        (optStr (chain.getLastD ⟨none, none, none, none⟩).issuerCN) = true) := by
  have hemp : chain.isEmpty = false := by
    cases chain with
    | nil => exact absurd rfl hne
    | cons c cs => rfl
  constructor
  · unfold check_ca_chain
    rw [if_neg (by rw [hemp]; exact Bool.false_ne_true)]
    by_cases hany : chain.any certMatchesRoot = true
    · rw [if_pos hany]
      exact iff_of_true rfl (Or.inl (List.any_eq_true.1 hany))
    · rw [if_neg hany]
      by_cases hiss : ((chain.getLastD ⟨none, none, none, none⟩).issuerCN ==
          some EXPECTED_ROOT_CA_CN &&
          (chain.getLastD ⟨none, none, none, none⟩).issuerO == some EXPECTED_ROOT_CA_ORG) = true
      · rw [if_pos hiss]
        exact ⟨fun _ => Or.inr hiss, fun _ => rfl⟩
      · rw [if_neg hiss]
        constructor
        · intro h
          exact Except.noConfusion h
        · intro h
          rcases h with h | h
          · exact absurd (List.any_eq_true.2 h) hany
          · exact absurd h hiss
  · intro hnot
    have hany : ¬chain.any certMatchesRoot = true :=
      fun h => hnot (Or.inl (List.any_eq_true.1 h))
    have hiss : ¬((chain.getLastD ⟨none, none, none, none⟩).issuerCN ==
        some EXPECTED_ROOT_CA_CN &&
        (chain.getLastD ⟨none, none, none, none⟩).issuerO == some EXPECTED_ROOT_CA_ORG) = true :=
      fun h => hnot (Or.inr h)
    refine ⟨?_, ?_, ?_⟩
    · unfold check_ca_chain
      rw [if_neg (by rw [hemp]; exact Bool.false_ne_true), if_neg hany, if_neg hiss]
    · unfold containsStr
      rw [subChars_iff]
      refine ⟨("Domain " ++ domain ++ " uses different root CA. Expected CN=" ++ sq).data,
        (sq ++ ", got CN=" ++ sq ++
          optStr (chain.getLastD ⟨none, none, none, none⟩).issuerCN ++ sq).data, ?_⟩
      simp [data_append, List.append_assoc]
    · unfold containsStr
      rw [subChars_iff]
      refine ⟨("Domain " ++ domain ++ " uses different root CA. Expected CN=" ++ sq ++
        EXPECTED_ROOT_CA_CN ++ sq ++ ", got CN=" ++ sq).data, sq.data, ?_⟩
      simp [data_append, List.append_assoc]

theorem c7_ca_chain_witness :
    check_ca_chain "x.gov.pl"
      [(⟨none, none, some "Other CA", some "Other Org"⟩ : CertInfo)] =
      Except.error ("Domain " ++ "x.gov.pl" ++ " uses different root CA. Expected CN=" ++ sq ++
        EXPECTED_ROOT_CA_CN ++ sq ++ ", got CN=" ++ sq ++
        optStr ((([(⟨none, none, some "Other CA", some "Other Org"⟩ : CertInfo)]).getLastD
          ⟨none, none, none, none⟩).issuerCN) ++ sq) ∧
    check_ca_chain "x.gov.pl"
      [(⟨some "Certum Trusted Network CA", some "Unizeto Technologies S.A.", none, none⟩ :
        CertInfo)] = Except.ok true := by
  constructor
  · exact ((c7_ca_chain "x.gov.pl"
      [(⟨none, none, some "Other CA", some "Other Org"⟩ : CertInfo)] (by decide)).2
      (by decide)).1
  · exact (c7_ca_chain "x.gov.pl"
      [(⟨some "Certum Trusted Network CA", some "Unizeto Technologies S.A.", none, none⟩ :
        CertInfo)] (by decide)).1.2 (Or.inl ⟨_, List.mem_singleton.2 rfl, by decide⟩)

/-! ## Claim C8 -/

theorem containsStr_of_middle (h a b c : String)
    (hsub : containsStr h (a ++ b ++ c) = true) : containsStr h b = true := by
  unfold containsStr at hsub ⊢
  rw [subChars_iff] at hsub ⊢
  obtain ⟨x, y, hxy⟩ := hsub
  refine ⟨x ++ a.data, c.data ++ y, ?_⟩
  simp only [data_append, List.append_assoc] at hxy ⊢
  exact hxy

/-- C8: `_parse_ssl_error` inspects the lower-cased error text in order —
any text containing `expired` maps to the certificate-expired message;
otherwise `hostname`/`does not match` to the hostname-mismatch message;
otherwise `self signed`/`self-signed` to the self-signed message;
otherwise `unable to get local issuer`/`certificate verify failed` to the
untrusted-root message; any other text to the generic certificate-error
message carrying the original text.  The function is total, so exactly
one `CertificateError` is raised and it never returns normally. -/
theorem c8_certificate_classifier (errText url : String) :
    (containsStr (asciiLower errText) "expired" = true →
      _parse_ssl_error errText url = "Certificate has expired for " ++ url) ∧
    (containsStr (asciiLower errText) "expired" = false →
      (containsStr (asciiLower errText) "hostname" ||
        containsStr (asciiLower errText) "does not match") = true →
      _parse_ssl_error errText url = "Certificate hostname mismatch for " ++ url) ∧
    (containsStr (asciiLower errText) "expired" = false →
      (containsStr (asciiLower errText) "hostname" ||
        containsStr (asciiLower errText) "does not match") = false →
      (containsStr (asciiLower errText) "self signed" ||
        containsStr (asciiLower errText) "self-signed") = true →
      _parse_ssl_error errText url = "Self-signed certificate detected for " ++ url) ∧
    (containsStr (asciiLower errText) "expired" = false →
      (containsStr (asciiLower errText) "hostname" ||
        containsStr (asciiLower errText) "does not match") = false →
      (containsStr (asciiLower errText) "self signed" ||
        containsStr (asciiLower errText) "self-signed") = false →
      (containsStr (asciiLower errText) "unable to get local issuer" ||
        containsStr (asciiLower errText) "certificate verify failed") = true →
      _parse_ssl_error errText url = "Untrusted root certificate for " ++ url) ∧
    (containsStr (asciiLower errText) "expired" = false →
      (containsStr (asciiLower errText) "hostname" ||
        containsStr (asciiLower errText) "does not match") = false →
      (containsStr (asciiLower errText) "self signed" ||
        containsStr (asciiLower errText) "self-signed") = false →
      (containsStr (asciiLower errText) "unable to get local issuer" ||
        containsStr (asciiLower errText) "certificate verify failed") = false →
      _parse_ssl_error errText url = "Certificate error for " ++ url ++ ": " ++ errText) := by
  have hsubsume : containsStr (asciiLower errText) "certificate has expired" = true →
      containsStr (asciiLower errText) "expired" = true := by
    intro h
    refine containsStr_of_middle _ "certificate has " "expired" "" ?_
    rw [show ("certificate has " ++ "expired" ++ "" : String) = "certificate has expired" from
      rfl]
    exact h
  have hfirst_false : containsStr (asciiLower errText) "expired" = false →
      (containsStr (asciiLower errText) "certificate has expired" ||
        containsStr (asciiLower errText) "expired") = false := by
    intro h
    rcases hc : containsStr (asciiLower errText) "certificate has expired" with _ | _
    · rw [h]
      rfl
    · exact absurd (hsubsume hc) (by rw [h]; exact Bool.false_ne_true)
  refine ⟨?_, ?_, ?_, ?_, ?_⟩
  · intro h1
    unfold _parse_ssl_error
    rw [if_pos (by rw [h1]; simp)]
  · intro h1 h2
    unfold _parse_ssl_error
    rw [if_neg (by rw [hfirst_false h1]; exact Bool.false_ne_true), if_pos h2]
  · intro h1 h2 h3
    unfold _parse_ssl_error
    rw [if_neg (by rw [hfirst_false h1]; exact Bool.false_ne_true),
      if_neg (by rw [h2]; exact Bool.false_ne_true), if_pos h3]
  · intro h1 h2 h3 h4
    unfold _parse_ssl_error
    rw [if_neg (by rw [hfirst_false h1]; exact Bool.false_ne_true),
      if_neg (by rw [h2]; exact Bool.false_ne_true),
      if_neg (by rw [h3]; exact Bool.false_ne_true), if_pos h4]
  · intro h1 h2 h3 h4
    unfold _parse_ssl_error
    rw [if_neg (by rw [hfirst_false h1]; exact Bool.false_ne_true),
      if_neg (by rw [h2]; exact Bool.false_ne_true),
      if_neg (by rw [h3]; exact Bool.false_ne_true),
      if_neg (by rw [h4]; exact Bool.false_ne_true)]

theorem c8_certificate_classifier_witness :
    _parse_ssl_error "SSLCertVerificationError: certificate has expired" "https://x.gov.pl" =
      "Certificate has expired for " ++ "https://x.gov.pl" ∧
    _parse_ssl_error "Hostname mismatch, certificate is not valid" "https://x.gov.pl" =
      "Certificate hostname mismatch for " ++ "https://x.gov.pl" ∧
    _parse_ssl_error "unexpected failure" "https://x.gov.pl" =
      "Certificate error for " ++ "https://x.gov.pl" ++ ": " ++ "unexpected failure" :=
  ⟨(c8_certificate_classifier "SSLCertVerificationError: certificate has expired"
      "https://x.gov.pl").1 (by decide),
    (c8_certificate_classifier "Hostname mismatch, certificate is not valid"
      "https://x.gov.pl").2.1 (by decide) (by decide),
    (c8_certificate_classifier "unexpected failure" "https://x.gov.pl").2.2.2.2
      (by decide) (by decide) (by decide) (by decide)⟩

/-! ## Claim C9 -/

/-- C9: the HTTP-downgrade check raises an `HTTPError` exactly when the
final response URL starts with `http://` or some URL in the redirect
history starts with `http://` — so it fails even when the final response
is HTTPS again after an HTTP hop in the chain, and returns without error
otherwise. -/
theorem c9_http_downgrade (finalUrl : String) (history : List String) (original : String) :
    _check_http_redirects finalUrl history original ≠ none ↔
      (startsWithStr finalUrl "http://" = true ∨
        ∃ u ∈ history, startsWithStr u "http://" = true) := by
  unfold _check_http_redirects
  by_cases h1 : startsWithStr finalUrl "http://" = true
  · rw [if_pos h1]
    exact iff_of_true (fun h => Option.noConfusion h) (Or.inl h1)
  · rw [if_neg h1]
    rcases hf : history.find? (fun redirect => startsWithStr redirect "http://") with _ | u
    · refine iff_of_false (fun h => h rfl) ?_
      rintro (h | ⟨u, hu, hp⟩)
      · exact h1 h
      · exact absurd hp (by simpa using List.find?_eq_none.1 hf u hu)
    · refine iff_of_true (fun h => Option.noConfusion h)
        (Or.inr ⟨u, List.mem_of_find?_eq_some hf, ?_⟩)
      have hp := List.find?_some hf
      simpa using hp

/-! ## Claim C10 -/

/-- C10: for every domain whose normalized form still contains a colon
(e.g. `example.com:8443`), `generate_token` succeeds (it is total and
produces a token), but the colon-joined serialization splits into more
than five fields, so `verify_token` rejects the freshly generated token
with the `Invalid token format` reason — the round trip fails for every
such domain, whatever the salt, TTL, clock and MAC. -/
theorem c10_colon_domain (mac : String → String) (domain salt : String) (ttl : Int) (now : Nat)
    (hcolon : ':' ∈ (normalize_domain domain).data) :
    5 < (splitColon (normalize_domain domain ++ ":" ++ natToStr now ++ ":" ++ intToStr ttl ++
      ":" ++ salt ++ ":" ++ mac (normalize_domain domain ++ ":" ++ natToStr now ++ ":" ++
      intToStr ttl ++ ":" ++ salt))).length ∧
    verify_token mac now (generate_token mac domain ttl now salt) =
      (false, "Invalid token format", "") := by
  have hlen : 5 < (splitColon (normalize_domain domain ++ ":" ++ natToStr now ++ ":" ++
      intToStr ttl ++ ":" ++ salt ++ ":" ++ mac (normalize_domain domain ++ ":" ++
      natToStr now ++ ":" ++ intToStr ttl ++ ":" ++ salt))).length := by
    rw [splitColon_join_length]
    have h1 : (normalize_domain domain).data.count ':' ≠ 0 :=
      fun h0 => (List.count_eq_zero.1 h0) hcolon
    omega
  refine ⟨hlen, ?_⟩
  show verify_token mac now (b64EncodeStr (normalize_domain domain ++ ":" ++ natToStr now ++
    ":" ++ intToStr ttl ++ ":" ++ salt ++ ":" ++ mac (normalize_domain domain ++ ":" ++
    natToStr now ++ ":" ++ intToStr ttl ++ ":" ++ salt))) = (false, "Invalid token format", "")
  exact verify_format_err mac now _ _ (b64DecodeStr_encodeStr _) (by omega)

theorem c10_colon_domain_witness :
    5 < (splitColon (normalize_domain "example.com:8443" ++ ":" ++ natToStr 100 ++ ":" ++
      intToStr 30 ++ ":" ++ "ff" ++ ":" ++ macDemo (normalize_domain "example.com:8443" ++
      ":" ++ natToStr 100 ++ ":" ++ intToStr 30 ++ ":" ++ "ff"))).length ∧
    verify_token macDemo 100 (generate_token macDemo "example.com:8443" 30 100 "ff") =
      (false, "Invalid token format", "") :=
  c10_colon_domain macDemo "example.com:8443" "ff" 30 100 (by decide)

end Weryfikator
